import Mathlib

/-!
Verification of the spatial planning core of the office-layout planner
(repository `office-layout-planner-PIU`).

The Python sources under `src/office_layout/` are shallowly embedded here:
real numbers become `ℚ` (all inputs of interest are exact decimals), Python
lists become `List`, Python dicts keyed by object id become insertion-ordered
association lists, and fallible code returns `Except PyErr`.

Embedded modules:
* `utils/geometry.py`        — `Rect`, intersection, cell rasterization;
* `models/object_types.py`   — the `ObjectType` enum and its metadata table;
* `models/layout_model.py`   — `LayoutObject`, `LayoutModel`, serialization;
* `algorithms/placement.py`  — `can_place_object`, `move_object`;
* `algorithms/validation.py` — `_obj_rect`, `_build_occupancy_grid`;
* `algorithms/routing.py`    — `_obj_rect`, `_build_occupancy_grid`, A*,
  `find_shortest_path_to_exit`.
-/

attribute [local semireducible] Rat.add Rat.sub Rat.mul Rat.inv

deriving instance DecidableEq for Except

/-- Python exception kinds that the embedded code can raise. -/
inductive PyErr where
  | attributeError
  | valueError
  | keyError
  deriving DecidableEq, Repr

/-! ## utils/geometry.py -/

/-- `Rect` from `utils/geometry.py` (also the identical dataclass re-declared
in `algorithms/placement.py`): four rational fields, no implicit
normalization. -/
structure Rect where
  x : ℚ
  y : ℚ
  width : ℚ
  height : ℚ
  deriving DecidableEq, Repr

def Rect.left (r : Rect) : ℚ := r.x

def Rect.top (r : Rect) : ℚ := r.y

def Rect.right (r : Rect) : ℚ := r.x + r.width

def Rect.bottom (r : Rect) : ℚ := r.y + r.height

/-- `Rect.normalized`: negative extents flip the origin. -/
def Rect.normalized (r : Rect) : Rect :=
  let x := if r.width < 0 then r.x + r.width else r.x
  let w := if r.width < 0 then -r.width else r.width
  let y := if r.height < 0 then r.y + r.height else r.y
  let h := if r.height < 0 then -r.height else r.height
  ⟨x, y, w, h⟩

/-- `rects_intersect` from `utils/geometry.py`: open-interval overlap on both
axes, after normalizing both rectangles. -/
def rects_intersect (a b : Rect) : Bool :=
  let ra := a.normalized
  let rb := b.normalized
  ¬(ra.right ≤ rb.left ∨ ra.left ≥ rb.right ∨ ra.bottom ≤ rb.top ∨ ra.top ≥ rb.bottom)

/-- A grid cell, `(row, col)`; Python ints, so `Int` (pre-clamp values can be
negative). -/
abbrev Cell := Int × Int

/-- An occupancy grid: a list of rows, each a list of `0`/`1` flags, exactly
as the Python `List[List[int]]`. -/
abbrev Grid := List (List Nat)

/-- `world_to_cell` from `utils/geometry.py`: `row = ⌊y/g⌋`, `col = ⌊x/g⌋`.
The source raises `ValueError` for `g ≤ 0`; every call site in the embedded
code passes `g > 0`, and theorems carry that hypothesis. -/
def world_to_cell (x y g : ℚ) : Cell := (⌊y / g⌋, ⌊x / g⌋)

/-- The integers `a, a+1, …, b` (empty when `b < a`). -/
def intRange (a b : Int) : List Int :=
  (List.range (b + 1 - a).toNat).map (fun i => a + (i : Int))

/-- `rect_to_covered_cells` from `utils/geometry.py`: the cells a normalized
rectangle covers, with an `1e-9` shrink of the far edges and clamping of the
bounds to `[0, max_rows-1] × [0, max_cols-1]`.  The source raises
`ValueError` for `grid ≤ 0`; all embedded call sites pass `grid > 0`. -/
def rect_to_covered_cells (r : Rect) (grid : ℚ) (maxRows maxCols : Int) :
    List Cell :=
  let rr := r.normalized
  let eps : ℚ := 1 / 1000000000
  let startRow := max 0 (min (maxRows - 1) ⌊rr.top / grid⌋)
  let endRow := max 0 (min (maxRows - 1) ⌊(rr.bottom - eps) / grid⌋)
  let startCol := max 0 (min (maxCols - 1) ⌊rr.left / grid⌋)
  let endCol := max 0 (min (maxCols - 1) ⌊(rr.right - eps) / grid⌋)
  (intRange startRow endRow).flatMap fun ri =>
    (intRange startCol endCol).map fun ci => (ri, ci)

/-- Read `grid[r][c]`; all call sites in the source guard `0 ≤ r < h` and
`0 ≤ c < w` before indexing, so the `0` default is never observed. -/
def gridGet (g : Grid) (r c : Int) : Nat :=
  (g.getD r.toNat []).getD c.toNat 0

/-- Write `grid[r][c] = v` (in the source a statement; here a copy).
`List.set` is a no-op out of range, matching the guarded call sites. -/
def gridSet (g : Grid) (r c : Int) (v : Nat) : Grid :=
  g.set r.toNat ((g.getD r.toNat []).set c.toNat v)

/-! ## models/object_types.py (as present in the source) -/

/-- The `ObjectType` enum exactly as `src/office_layout/models/object_types.py`
defines it: seven members.  (The repository's tests, scene and routing code
reference further members — see `ObjType` below.) -/
inductive ObjectType where
  | desk
  | chair
  | armchair
  | plant
  | wall
  | printer
  | meeting_table
  deriving DecidableEq, Repr

/-- `ObjectType.value`: the stable string value of each enum member. -/
def ObjectType.value : ObjectType → String
  | .desk => "desk"
  | .chair => "chair"
  | .armchair => "armchair"
  | .plant => "plant"
  | .wall => "wall"
  | .printer => "printer"
  | .meeting_table => "meeting_table"

/-- `ObjectType(value)`: the enum constructor on a string, `ValueError` on an
unknown value. -/
def ObjectType.ofValue : String → Except PyErr ObjectType
  | "desk" => .ok .desk
  | "chair" => .ok .chair
  | "armchair" => .ok .armchair
  | "plant" => .ok .plant
  | "wall" => .ok .wall
  | "printer" => .ok .printer
  | "meeting_table" => .ok .meeting_table
  | _ => .error .valueError

/-- `ObjectTypeInfo` from `object_types.py`. -/
structure ObjectTypeInfo where
  type : ObjectType
  default_width : ℚ
  default_height : ℚ
  min_distance_to_same_type : ℚ
  min_distance_to_other : ℚ
  category : String
  walkable : Bool
  deriving DecidableEq, Repr

/-- The `OBJECT_TYPES` dictionary from `object_types.py`, as a total function
(the Python dict has exactly one entry per enum member). -/
def OBJECT_TYPES : ObjectType → ObjectTypeInfo
  | .desk => ⟨.desk, 120, 60, 50, 30, "furniture", false⟩
  | .chair => ⟨.chair, 40, 40, 20, 20, "furniture", false⟩
  | .armchair => ⟨.armchair, 60, 60, 20, 20, "furniture", false⟩
  | .plant => ⟨.plant, 40, 40, 10, 10, "decoration", false⟩
  | .wall => ⟨.wall, 100, 10, 0, 0, "infrastructure", false⟩
  | .printer => ⟨.printer, 50, 50, 20, 20, "infrastructure", false⟩
  | .meeting_table => ⟨.meeting_table, 200, 100, 50, 40, "furniture", false⟩

/-- `get_type_info` from `object_types.py`. -/
def get_type_info (t : ObjectType) : ObjectTypeInfo := OBJECT_TYPES t

/-- `is_walkable` from `object_types.py`. -/
def is_walkable (t : ObjectType) : Bool := (OBJECT_TYPES t).walkable

/-! ## models/layout_model.py -/

/-- `LayoutObject` from `models/layout_model.py`.  `metadata` is a free-form
string dictionary in the source; the embedded code only ever reads the string
value of the `"ui_type"` key, so values are modelled as strings. -/
structure LayoutObject where
  id : Int
  type : ObjectType
  x : ℚ
  y : ℚ
  width : ℚ
  height : ℚ
  rotation : ℚ
  metadata : List (String × String)
  deriving DecidableEq, Repr

/-- `LayoutModel`.  `objects` is the insertion-ordered id-keyed dict
`_objects` (values in insertion order, as Python iterates it); `next_id` is
`_next_id`; `min_clearance` models the attribute that the placement engine
reads with `getattr(layout_model, "min_clearance", 0.0)` — the constructor
does not set it, so a freshly built model carries `0`. -/
structure LayoutModel where
  room_width : ℚ
  room_height : ℚ
  grid_size : ℚ
  objects : List LayoutObject
  next_id : Int
  exit_points : List (ℚ × ℚ)
  min_clearance : ℚ
  deriving DecidableEq, Repr

/-- `LayoutModel(room_width, room_height, grid_size)`. -/
def mkLayoutModel (rw rh gs : ℚ) : LayoutModel :=
  ⟨rw, rh, gs, [], 1, [], 0⟩

/-- `self._objects[obj.id] = obj` on an insertion-ordered dict: replace the
entry with the same key in place, else append. -/
def dictInsert (objs : List LayoutObject) (o : LayoutObject) : List LayoutObject :=
  match objs with
  | [] => [o]
  | a :: rest => if a.id = o.id then o :: rest else a :: dictInsert rest o

/-- `LayoutModel.get_object`: `self._objects.get(obj_id)`. -/
def get_object (m : LayoutModel) (objId : Int) : Option LayoutObject :=
  m.objects.find? (fun o => o.id == objId)

/-- `LayoutModel.remove_object`: `self._objects.pop(obj_id, None)` (under the
dict invariant at most one entry has the key). -/
def remove_object (m : LayoutModel) (objId : Int) : LayoutModel :=
  { m with objects := m.objects.filter (fun o => o.id != objId) }

/-- `LayoutModel.add_object`: builds the `LayoutObject`, stores it under its
id, and advances `_next_id` (`max(_next_id, forced_id + 1)` when a forced id
is supplied).  The source performs no input validation whatsoever. -/
def add_object (m : LayoutModel) (t : ObjectType) (x y w h rot : ℚ)
    (metadata : List (String × String)) (forcedId : Option Int) :
    LayoutObject × LayoutModel :=
  let objId : Int := match forcedId with | some i => i | none => m.next_id
  let nid : Int := match forcedId with
    | some i => max m.next_id (i + 1)
    | none => m.next_id + 1
  let obj : LayoutObject := ⟨objId, t, x, y, w, h, rot, metadata⟩
  (obj, { m with objects := dictInsert m.objects obj, next_id := nid })

/-! ### Serialization (`to_dict` / `from_dict`) -/

/-- The dictionary produced by `LayoutObject.to_dict` (all keys are always
emitted, `type` as the enum's string value). -/
structure SerializedObject where
  id : Int
  type : String
  x : ℚ
  y : ℚ
  width : ℚ
  height : ℚ
  rotation : ℚ
  metadata : List (String × String)
  deriving DecidableEq, Repr

/-- The dictionary produced by `LayoutModel.to_dict`.  `to_dict` always emits
every key, so the `.get(..., default)` fallbacks of `from_dict` (room
`800×600`, `grid_size` `50`) are unreachable on round-trips and optional
keys are not modelled. -/
structure SerializedLayout where
  room_width : ℚ
  room_height : ℚ
  grid_size : ℚ
  objects : List SerializedObject
  exit_points : List (ℚ × ℚ)
  deriving DecidableEq, Repr

/-- `LayoutObject.to_dict`. -/
def LayoutObject.to_dict (o : LayoutObject) : SerializedObject :=
  ⟨o.id, o.type.value, o.x, o.y, o.width, o.height, o.rotation, o.metadata⟩

/-- `LayoutObject.from_dict`: `ObjectType(data["type"])` raises `ValueError`
on an unknown value. -/
def LayoutObject.from_dict (d : SerializedObject) : Except PyErr LayoutObject := do
  let t ← ObjectType.ofValue d.type
  pure ⟨d.id, t, d.x, d.y, d.width, d.height, d.rotation, d.metadata⟩

/-- `LayoutModel.to_dict`. -/
def LayoutModel.to_dict (m : LayoutModel) : SerializedLayout :=
  ⟨m.room_width, m.room_height, m.grid_size, m.objects.map LayoutObject.to_dict,
    m.exit_points⟩

/-- One iteration of `from_dict`'s object loop: decode the object, then
`add_object` with its id forced. -/
def from_dict_step (acc : LayoutModel) (od : SerializedObject) :
    Except PyErr LayoutModel := do
  let obj ← LayoutObject.from_dict od
  pure (add_object acc obj.type obj.x obj.y obj.width obj.height
    obj.rotation obj.metadata (some obj.id)).2

/-- `LayoutModel.from_dict`: a fresh model, then `add_object` with
`forced_id` for every serialized object in order, then the exit points. -/
def LayoutModel.from_dict (d : SerializedLayout) : Except PyErr LayoutModel := do
  let m ← d.objects.foldlM from_dict_step (mkLayoutModel d.room_width d.room_height d.grid_size)
  pure { m with exit_points := d.exit_points }

/-! ## algorithms/placement.py

The placement module declares its own `Rect` dataclass with the same four
fields and no normalization anywhere; the `Rect` above is reused for it.
`_to_rect` on a `LayoutObject` reads the raw attributes; candidates arrive
as `Rect` values, on which `_to_rect` is the identity. -/

/-- placement `_to_rect` applied to a layout object: the raw
`(x, y, width, height)` — no wall handling. -/
def placement_to_rect (o : LayoutObject) : Rect := ⟨o.x, o.y, o.width, o.height⟩

/-- placement `collides`: strict-overlap test on the raw rectangles (touching
edges do not collide); no normalization. -/
def collides (a b : Rect) : Bool :=
  !(decide (a.right ≤ b.left) || decide (b.right ≤ a.left)
    || decide (a.bottom ≤ b.top) || decide (b.bottom ≤ a.top))

/-- placement `fits_in_room`: closed containment on the raw rectangles. -/
def fits_in_room (o r : Rect) : Bool :=
  decide (o.left ≥ r.left) && decide (o.top ≥ r.top)
    && decide (o.right ≤ r.right) && decide (o.bottom ≤ r.bottom)

/-- The axis gap `dx` computed by placement `distance_between`. -/
def gap_dx (a b : Rect) : ℚ :=
  if a.right < b.left then b.left - a.right
  else if b.right < a.left then a.left - b.right
  else 0

/-- The axis gap `dy` computed by placement `distance_between`. -/
def gap_dy (a b : Rect) : ℚ :=
  if a.bottom < b.top then b.top - a.bottom
  else if b.bottom < a.top then a.top - b.bottom
  else 0

/-- The test `distance_between(a, b) < mcl` of `_can_place_internal`.  The
source computes `sqrt(dx² + dy²)` and compares; the engine only evaluates the
comparison under `min_clearance > 0`, and for `m > 0` one has
`sqrt s < m ↔ s < m²`, so the embedding compares squares (exact in `ℚ`). -/
def distance_between_lt (a b : Rect) (mcl : ℚ) : Bool :=
  decide (gap_dx a b ^ 2 + gap_dy a b ^ 2 < mcl ^ 2)

/-- `_get_room_rect` for a `LayoutModel` (which has no `room_rect` attribute):
`get_room_rect()` returns `{x: 0, y: 0, width: room_width, height:
room_height}`, converted by `_to_rect` without normalization. -/
def placement_room_rect (m : LayoutModel) : Rect :=
  ⟨0, 0, m.room_width, m.room_height⟩

/-- The object loop of `_can_place_internal`, with its early returns.  The
source skips `other` when it is identical to `ignore_obj` or its id equals
`ignore_id`; `move_object` passes the object found under `ignore_id` as
`ignore_obj`, so the id test subsumes the identity test here. -/
def can_place_loop (cand : Rect) (mcl : ℚ) (ignoreId : Option Int) :
    List LayoutObject → Bool × String
  | [] => (true, "Placement is valid.")
  | o :: rest =>
    if ignoreId = some o.id then can_place_loop cand mcl ignoreId rest
    else if collides cand (placement_to_rect o) then
      (false, "Object collides with another object.")
    else if decide (mcl > 0) && distance_between_lt cand (placement_to_rect o) mcl then
      (false, "Object is too close to another object.")
    else can_place_loop cand mcl ignoreId rest

/-- `_can_place_internal` on a `LayoutModel` and a candidate rectangle. -/
def can_place_internal (m : LayoutModel) (cand : Rect) (ignoreId : Option Int) :
    Bool × String :=
  if !fits_in_room cand (placement_room_rect m) then
    (false, "Object is outside room bounds.")
  else can_place_loop cand m.min_clearance ignoreId m.objects

/-- `can_place_object`. -/
def can_place_object (m : LayoutModel) (cand : Rect) : Bool × String :=
  can_place_internal m cand none

/-- `move_object` on a `LayoutModel`.  `_find_object_by_id` calls
`layout_model.get_object(obj_id)`, which returns `None` on a miss (it does
not raise `KeyError`, the only exception `move_object` catches); the
subsequent `_to_rect(None)` then raises `AttributeError`.  On a hit, the
candidate is the raw `Rect(new_x, new_y, width, height)` and on success the
found object's `x`/`y` are overwritten. -/
def move_object (m : LayoutModel) (objId : Int) (nx ny : ℚ) :
    Except PyErr (Bool × String × LayoutModel) :=
  match get_object m objId with
  | none => .error .attributeError
  | some obj =>
    let cand : Rect := ⟨nx, ny, obj.width, obj.height⟩
    let r := can_place_internal m cand (some objId)
    if r.1 then
      .ok (true, "Object moved successfully.",
        { m with objects :=
            m.objects.map fun o => if o.id = objId then { o with x := nx, y := ny } else o })
    else
      .ok (false, r.2, m)

/-! ## The object-type table the engines reference

`routing.py` compares `obj.type` with `ObjectType.DOOR`, `graphics/scene.py`
maps UI labels to `ObjectType.DOOR/SINK/TOILET/WASHBASIN`, and
`tests/test_object_types.py` asserts `is_walkable(ObjectType.DOOR) is True` —
but `object_types.py` defines none of those members (accessing
`ObjectType.DOOR` raises `AttributeError`).  The engines are therefore
embedded over the full table those callers assume. -/

/-- Modelled from the spec: the closed object-type enumeration of §3.2/§6.3.
The members `DOOR`, `SINK`, `TOILET`, `WASHBASIN` are referenced throughout
the repository (routing, scene, tests) but missing from
`src/office_layout/models/object_types.py`. -/
inductive ObjType where
  | desk
  | chair
  | armchair
  | plant
  | wall
  | door
  | printer
  | meeting_table
  | sink
  | toilet
  | washbasin
  deriving DecidableEq, Repr

/-- Python `t.name.title()` for each member (used by `_ui_type` as the
fallback label when no `ui_type` metadata is present). -/
def ObjType.title : ObjType → String
  | .desk => "Desk"
  | .chair => "Chair"
  | .armchair => "Armchair"
  | .plant => "Plant"
  | .wall => "Wall"
  | .door => "Door"
  | .printer => "Printer"
  | .meeting_table => "Meeting_Table"
  | .sink => "Sink"
  | .toilet => "Toilet"
  | .washbasin => "Washbasin"

/-- Modelled from the spec: the `walkable` column of §6.3 — `DOOR` is the
only walkable type.  (The source table marks every one of its seven members
non-walkable; see `is_walkable` above.) -/
def ObjType.walkable : ObjType → Bool
  | .door => true
  | _ => false

/-! ## Duck-typed objects as the validation/routing engines read them

Both engines take `layout_model: Any` and read objects through
`getattr(obj, "type", None)`, `x`, `y`, `width`, `height` and the `metadata`
dict — exactly the shape of the `Obj` dataclass in the repository's tests. -/

/-- An object as the validation/routing engines consume it. -/
structure EngineObject where
  type : Option ObjType
  x : ℚ
  y : ℚ
  width : ℚ
  height : ℚ
  metadata : List (String × String)
  deriving DecidableEq, Repr

/-- A layout as the engines consume it (`room_width`/`room_height`,
`grid_size`, `all_objects()`, `exit_points`). -/
structure EngineLayout where
  room_width : ℚ
  room_height : ℚ
  grid_size : ℚ
  objects : List EngineObject
  exit_points : List (ℚ × ℚ)
  deriving DecidableEq, Repr

/-- `metadata.get(key)` on the string dictionary. -/
def lookupMeta (md : List (String × String)) (k : String) : Option String :=
  (md.find? (fun p => p.1 == k)).map Prod.snd

/-- `_ui_type` (identical in `validation.py` and `routing.py`): a non-empty
`"ui_type"` metadata string wins; otherwise the enum member's `.name.title()`;
otherwise `"Unknown"`. -/
def engine_ui_type (o : EngineObject) : String :=
  let fallback := match o.type with
    | some t => t.title
    | none => "Unknown"
  match lookupMeta o.metadata "ui_type" with
  | some v => if v = "" then fallback else v
  | none => fallback

/-- `_is_wall`: the object's type is `WALL`, or its UI label is `"Wall"`. -/
def engine_is_wall (o : EngineObject) : Bool :=
  o.type == some ObjType.wall || engine_ui_type o == "Wall"

/-- `_is_door` from `routing.py`: type `DOOR`, or UI label `"Door"`. -/
def engine_is_door (o : EngineObject) : Bool :=
  o.type == some ObjType.door || engine_ui_type o == "Door"

/-- `_obj_rect` from `validation.py`: the centerline convention for objects
classified as walls, raw top-left for everything else, normalized. -/
def validation_obj_rect (o : EngineObject) : Rect :=
  if engine_is_wall o then
    let thickness := min o.width o.height
    if o.width ≥ o.height then
      (Rect.mk o.x (o.y - thickness / 2) o.width thickness).normalized
    else
      (Rect.mk (o.x - thickness / 2) o.y thickness o.height).normalized
  else (Rect.mk o.x o.y o.width o.height).normalized

/-- `_obj_rect` from `routing.py` (a verbatim copy of the validation one). -/
def routing_obj_rect (o : EngineObject) : Rect :=
  if engine_is_wall o then
    let thickness := min o.width o.height
    if o.width ≥ o.height then
      (Rect.mk o.x (o.y - thickness / 2) o.width thickness).normalized
    else
      (Rect.mk (o.x - thickness / 2) o.y thickness o.height).normalized
  else (Rect.mk o.x o.y o.width o.height).normalized

/-- `_room_rect` for a layout exposing `room_width`/`room_height`:
`Rect(0, 0, w, h).normalized()` (identical outcome in both engines). -/
def engine_room_rect (L : EngineLayout) : Rect :=
  (Rect.mk 0 0 L.room_width L.room_height).normalized

/-- `_get_grid_size`: the layout's `grid_size` when positive, else `20`. -/
def engine_grid_size (L : EngineLayout) : ℚ :=
  if L.grid_size > 0 then L.grid_size else 20

/-- The walkable-type skip `isinstance(ot, ObjectType) and is_walkable(ot)`
shared by both builders. -/
def engine_type_walkable (o : EngineObject) : Bool :=
  match o.type with
  | some t => t.walkable
  | none => false

/-- The guarded cell-assignment loop `for r0, c0 in cells: if 0 <= r0 < h and
0 <= c0 < w: grid[r0][c0] = value`. -/
def mark_cells (v : Nat) (cells : List Cell) (h w : Int) (g : Grid) : Grid :=
  cells.foldl
    (fun acc c =>
      if 0 ≤ c.1 ∧ c.1 < h ∧ 0 ≤ c.2 ∧ c.2 < w then gridSet acc c.1 c.2 v else acc)
    g

/-- `_mark_rect_as` from `validation.py`'s grid builder: translate into
room-local coordinates, rasterize, assign. -/
def validation_mark_rect (room : Rect) (cellSize : ℚ) (h w : Int) (v : Nat)
    (r : Rect) (g : Grid) : Grid :=
  let rr := r.normalized
  let loc := (Rect.mk (rr.left - room.left) (rr.top - room.top) rr.width rr.height).normalized
  mark_cells v (rect_to_covered_cells loc cellSize h w) h w g

/-- `_build_occupancy_grid` from `validation.py`: `⌊·⌋`-sized grid, obstacles
marked WITHOUT inflation, doors opened with the isotropic padding
`max(0.6·cell_size, 6)`, then each exit's own cell cleared. -/
def validation_build_occupancy_grid (L : EngineLayout) (cellSize : ℚ) :
    Grid × Rect × ℚ :=
  let room := engine_room_rect L
  let w : Int := max 1 ⌊room.width / cellSize⌋
  let h : Int := max 1 ⌊room.height / cellSize⌋
  let g0 : Grid := List.replicate h.toNat (List.replicate w.toNat 0)
  let g1 := L.objects.foldl
    (fun acc obj =>
      if engine_ui_type obj == "Door" then acc
      else if engine_type_walkable obj then acc
      else validation_mark_rect room cellSize h w 1 (validation_obj_rect obj) acc)
    g0
  let doorPad := max (cellSize * 3 / 5) 6
  let g2 := L.objects.foldl
    (fun acc obj =>
      if engine_ui_type obj != "Door" then acc
      else
        let r := (validation_obj_rect obj).normalized
        let opened := (Rect.mk (r.left - doorPad) (r.top - doorPad)
          (r.width + 2 * doorPad) (r.height + 2 * doorPad)).normalized
        validation_mark_rect room cellSize h w 0 opened acc)
    g1
  let g3 := L.exit_points.foldl
    (fun acc p =>
      let rc := world_to_cell (p.1 - room.left) (p.2 - room.top) cellSize
      if 0 ≤ rc.1 ∧ rc.1 < h ∧ 0 ≤ rc.2 ∧ rc.2 < w then gridSet acc rc.1 rc.2 0
      else acc)
    g2
  (g3, room, cellSize)

/-- `_mark_rect` from `routing.py`'s grid builder: translate, optionally
inflate, rasterize, assign. -/
def routing_mark_rect (room : Rect) (cellSize : ℚ) (h w : Int) (v : Nat)
    (r : Rect) (inflate : ℚ) (g : Grid) : Grid :=
  let rr := r.normalized
  let loc := (Rect.mk (rr.left - room.left) (rr.top - room.top) rr.width rr.height).normalized
  let loc2 := if inflate > 0 then
      (Rect.mk (loc.left - inflate) (loc.top - inflate)
        (loc.width + 2 * inflate) (loc.height + 2 * inflate)).normalized
    else loc
  mark_cells v (rect_to_covered_cells loc2 cellSize h w) h w g

/-- `_build_occupancy_grid` from `routing.py`: `⌈·⌉`-sized grid, obstacles
inflated by `max(0.25·cell_size, 3)`, anisotropic door carving, and the
8-neighbourhood of every in-bounds exit cell cleared. -/
def routing_build_occupancy_grid (L : EngineLayout) (cellSize : ℚ) :
    Grid × Rect × ℚ :=
  let room := engine_room_rect L
  let w : Int := max 1 ⌈room.width / cellSize⌉
  let h : Int := max 1 ⌈room.height / cellSize⌉
  let g0 : Grid := List.replicate h.toNat (List.replicate w.toNat 0)
  let obstacleInflate := max (cellSize / 4) 3
  let g1 := L.objects.foldl
    (fun acc obj =>
      if engine_is_door obj then acc
      else if engine_type_walkable obj then acc
      else routing_mark_rect room cellSize h w 1 (routing_obj_rect obj) obstacleInflate acc)
    g0
  let doorAcross := max (obstacleInflate + cellSize * 3 / 20) (1 / 2)
  let doorAlong := max (cellSize / 20) (1 / 2)
  let g2 := L.objects.foldl
    (fun acc obj =>
      if !engine_is_door obj then acc
      else
        let dr := (routing_obj_rect obj).normalized
        let opened :=
          if dr.height ≥ dr.width then
            (Rect.mk (dr.left - doorAcross) (dr.top - doorAlong)
              (dr.width + 2 * doorAcross) (dr.height + 2 * doorAlong)).normalized
          else
            (Rect.mk (dr.left - doorAlong) (dr.top - doorAcross)
              (dr.width + 2 * doorAlong) (dr.height + 2 * doorAcross)).normalized
        routing_mark_rect room cellSize h w 0 opened 0 acc)
    g1
  let deltas : List Int := [-1, 0, 1]
  let g3 := L.exit_points.foldl
    (fun acc p =>
      let rc := world_to_cell (p.1 - room.left) (p.2 - room.top) cellSize
      if 0 ≤ rc.1 ∧ rc.1 < h ∧ 0 ≤ rc.2 ∧ rc.2 < w then
        deltas.foldl
          (fun a2 dr =>
            deltas.foldl
              (fun a3 dc =>
                let r2 := rc.1 + dr
                let c2 := rc.2 + dc
                if 0 ≤ r2 ∧ r2 < h ∧ 0 ≤ c2 ∧ c2 < w then gridSet a3 r2 c2 0 else a3)
              a2)
          acc
      else acc)
    g2
  (g3, room, cellSize)

/-! ## algorithms/routing.py — A* and path recovery -/

/-- `_clamp_cell` (identical in both engines): clamp a cell into
`[0, h-1] × [0, w-1]`. -/
def clamp_cell (c : Cell) (w h : Int) : Cell :=
  let r := if c.1 < 0 then 0 else if c.1 ≥ h then h - 1 else c.1
  let cc := if c.2 < 0 then 0 else if c.2 ≥ w then w - 1 else c.2
  (r, cc)

/-- `_neighbors_4`: the in-bounds 4-neighbours, in the source's yield order
(up, down, left, right). -/
def neighbors_4 (c : Cell) (w h : Int) : List Cell :=
  (if c.1 > 0 then [(c.1 - 1, c.2)] else [])
    ++ (if c.1 < h - 1 then [(c.1 + 1, c.2)] else [])
    ++ (if c.2 > 0 then [(c.1, c.2 - 1)] else [])
    ++ (if c.2 < w - 1 then [(c.1, c.2 + 1)] else [])

/-- Strict ordering of heap entries `(f, (row, col))`: Python compares the
tuples lexicographically. -/
def heapKeyLt (a b : Nat × Cell) : Bool :=
  decide (a.1 < b.1)
    || (decide (a.1 = b.1)
      && (decide (a.2.1 < b.2.1) || (decide (a.2.1 = b.2.1) && decide (a.2.2 < b.2.2))))

/-- The least entry of the open list under the tuple order (entries that
compare equal are literally equal, so `heappop` is deterministic and the open
"heap" can be modelled as a plain list). -/
def heapMin : List (Nat × Cell) → Option (Nat × Cell)
  | [] => none
  | a :: rest =>
    match heapMin rest with
    | none => some a
    | some b => if heapKeyLt b a then some b else some a

/-- Remove the first occurrence of an entry. -/
def removeFirst (x : Nat × Cell) : List (Nat × Cell) → List (Nat × Cell)
  | [] => []
  | a :: rest => if a = x then rest else a :: removeFirst x rest

/-- `heappop`: extract the least entry. -/
def popMin (openSet : List (Nat × Cell)) :
    Option ((Nat × Cell) × List (Nat × Cell)) :=
  match heapMin openSet with
  | none => none
  | some m => some (m, removeFirst m openSet)

/-- Dictionary lookup on a cell-keyed association list. -/
def alFind {β : Type} (l : List (Cell × β)) (c : Cell) : Option β :=
  (l.find? (fun p => p.1 == c)).map Prod.snd

/-- Dictionary write on a cell-keyed association list (replace in place or
append, the insertion-ordered `dict` semantics). -/
def alSet {β : Type} : List (Cell × β) → Cell → β → List (Cell × β)
  | [], c, v => [(c, v)]
  | p :: rest, c, v => if p.1 = c then (c, v) :: rest else p :: alSet rest c v

/-- The neighbour loop of one `_astar_path` iteration, threading
`(open, came_from, gscore)`.  `tentative = gscore[cur] + 1` is constant
across the loop in the source and is passed in. -/
def astar_expand (grid : Grid) (goal cur : Cell) (tentative : Nat) :
    List Cell →
    List (Nat × Cell) × List (Cell × Option Cell) × List (Cell × Nat) →
    List (Nat × Cell) × List (Cell × Option Cell) × List (Cell × Nat)
  | [], st => st
  | nb :: rest, (op, cf, gs) =>
    if gridGet grid nb.1 nb.2 = 1 then
      astar_expand grid goal cur tentative rest (op, cf, gs)
    else
      let improve := match alFind gs nb with
        | none => true
        | some g0 => decide (tentative < g0)
      if improve then
        let f := tentative + (goal.1 - nb.1).natAbs + (goal.2 - nb.2).natAbs
        astar_expand grid goal cur tentative rest
          (op ++ [(f, nb)], alSet cf nb (some cur), alSet gs nb tentative)
      else astar_expand grid goal cur tentative rest (op, cf, gs)

/-- The path-reconstruction loop `while x is not None`, goal-first.  The
source recurses while `came_from.get(x)` is a cell; the fuel passed by
`astar_loop` exceeds the length of any acyclic parent chain. -/
def reconstruct (cf : List (Cell × Option Cell)) : Nat → Cell → List Cell
  | 0, x => [x]
  | fuel + 1, x =>
    match alFind cf x with
    | some (some p) => x :: reconstruct cf fuel p
    | _ => [x]

/-- The `while open_heap` loop of `_astar_path`.  Termination is by fuel;
`_astar_path` passes more steps than the loop can take (each push strictly
decreases some cell's g-score, bounding the heap traffic). -/
def astar_loop (grid : Grid) (w h : Int) (goal : Cell) :
    Nat → List (Nat × Cell) → List (Cell × Option Cell) → List (Cell × Nat) →
    Option (List Cell)
  | 0, _, _, _ => none
  | fuel + 1, op, cf, gs =>
    match popMin op with
    | none => none
    | some (fc, rest) =>
      let cur := fc.2
      if cur = goal then some ((reconstruct cf (cf.length + 1) cur).reverse)
      else
        let tentative := (alFind gs cur).getD 0 + 1
        let st := astar_expand grid goal cur tentative (neighbors_4 cur w h) (rest, cf, gs)
        astar_loop grid w h goal fuel st.1 st.2.1 st.2.2

/-- `_astar_path`: guards, then the loop from
`open = [(0, start)]`, `came_from = {start: None}`, `gscore = {start: 0}`. -/
def astar_path (grid : Grid) (start goal : Cell) : Option (List Cell) :=
  let h : Int := grid.length
  let w : Int := (grid.headD []).length
  if w = 0 then none
  else if ¬(0 ≤ start.1 ∧ start.1 < h ∧ 0 ≤ start.2 ∧ start.2 < w
      ∧ 0 ≤ goal.1 ∧ goal.1 < h ∧ 0 ≤ goal.2 ∧ goal.2 < w) then none
  else if gridGet grid start.1 start.2 = 1 ∨ gridGet grid goal.1 goal.2 = 1 then none
  else
    let n := h.toNat * w.toNat
    astar_loop grid w h goal ((n + 1) * (n + 1) + 1) [(0, start)] [(start, none)] [(start, 0)]

/-- `_cell_center_world`. -/
def cell_center_world (room : Rect) (cellSize : ℚ) (c : Cell) : ℚ × ℚ :=
  (room.left + ((c.2 : ℚ) + 1 / 2) * cellSize,
   room.top + ((c.1 : ℚ) + 1 / 2) * cellSize)

/-- One square scan of `_nearest_free_cell` at a fixed radius, in the
source's row-major order, returning the first free in-bounds cell. -/
def nfc_scan (grid : Grid) (h w sr sc radius : Int) : Option Cell :=
  (intRange (-radius) radius).findSome? fun dr =>
    (intRange (-radius) radius).findSome? fun dc =>
      let r2 := sr + dr
      let c2 := sc + dc
      if 0 ≤ r2 ∧ r2 < h ∧ 0 ≤ c2 ∧ c2 < w ∧ gridGet grid r2 c2 = 0 then
        some (r2, c2)
      else none

/-- `_nearest_free_cell`. -/
def nearest_free_cell (grid : Grid) (start : Cell) (maxRadius : Nat) : Option Cell :=
  let h : Int := grid.length
  let w : Int := (grid.headD []).length
  if w = 0 then none
  else if 0 ≤ start.1 ∧ start.1 < h ∧ 0 ≤ start.2 ∧ start.2 < w
      ∧ gridGet grid start.1 start.2 = 0 then some start
  else
    ((List.range maxRadius).map (fun i => (i : Int) + 1)).findSome? fun radius =>
      nfc_scan grid h w start.1 start.2 radius

/-- The cell size `find_shortest_path_to_exit` actually uses: the explicit
argument, or `min(grid_size, 12)`. -/
def resolve_cell_size (L : EngineLayout) (cellSizeArg : Option ℚ) : ℚ :=
  match cellSizeArg with
  | some c => c
  | none => min (engine_grid_size L) 12

/-- One exit of the selection loop of `find_shortest_path_to_exit`: repair
the goal cell, run A*, keep the strictly shorter path (first exit wins
ties). -/
def best_exit_step (grid : Grid) (room : Rect) (cell : ℚ) (w h : Int)
    (start : Cell) (acc : Option (List Cell × (ℚ × ℚ))) (e : ℚ × ℚ) :
    Option (List Cell × (ℚ × ℚ)) :=
  let g0 := clamp_cell (world_to_cell (e.1 - room.left) (e.2 - room.top) cell) w h
  let goalOpt := if gridGet grid g0.1 g0.2 = 1 then nearest_free_cell grid g0 12 else some g0
  match goalOpt with
  | none => acc
  | some goal =>
    match astar_path grid start goal with
    | none => acc
    | some cells =>
      match acc with
      | none => some (cells, e)
      | some best => if cells.length < best.1.length then some (cells, e) else acc

/-- The per-exit selection loop of `find_shortest_path_to_exit`. -/
def best_exit_fold (grid : Grid) (room : Rect) (cell : ℚ) (w h : Int)
    (start : Cell) : List (ℚ × ℚ) → Option (List Cell × (ℚ × ℚ)) →
    Option (List Cell × (ℚ × ℚ))
  | [], acc => acc
  | e :: rest, acc =>
    best_exit_fold grid room cell w h start rest
      (best_exit_step grid room cell w h start acc e)

/-- The start-cell repair of `find_shortest_path_to_exit`: convert, clamp,
and fall back to `_nearest_free_cell` when the clamped cell is blocked. -/
def fspe_start (grid : Grid) (room : Rect) (cell : ℚ) (w h : Int)
    (startXY : ℚ × ℚ) : Option Cell :=
  let start0 := clamp_cell (world_to_cell (startXY.1 - room.left) (startXY.2 - room.top) cell) w h
  if gridGet grid start0.1 start0.2 = 1 then nearest_free_cell grid start0 12
  else some start0

/-- The tail of `find_shortest_path_to_exit`: cell centers in world
coordinates, with the exact exit appended unless the last point already
agrees with it within `1e-6` per coordinate. -/
def fspe_finish (room : Rect) (cell : ℚ) (cells : List Cell) (e : ℚ × ℚ) :
    List (ℚ × ℚ) :=
  let pts := cells.map (cell_center_world room cell)
  let tol : ℚ := 1 / 1000000
  match pts.getLast? with
  | none => pts ++ [e]
  | some lastPt =>
    if |lastPt.1 - e.1| > tol ∨ |lastPt.2 - e.2| > tol then pts ++ [e]
    else pts

/-- `find_shortest_path_to_exit` from `routing.py`. -/
def find_shortest_path_to_exit (L : EngineLayout) (startXY : ℚ × ℚ)
    (cellSizeArg : Option ℚ) : Option (List (ℚ × ℚ)) :=
  if L.exit_points = [] then none
  else
    let cell := resolve_cell_size L cellSizeArg
    let b := routing_build_occupancy_grid L cell
    let grid := b.1
    let room := b.2.1
    let h : Int := grid.length
    let w : Int := (grid.headD []).length
    if w = 0 then none
    else
      match fspe_start grid room cell w h startXY with
      | none => none
      | some start =>
        match best_exit_fold grid room cell w h start L.exit_points none with
        | none => none
        | some (cells, e) => some (fspe_finish room cell cells e)

/-! ## Shared lemmas and concrete fixtures -/

/-- Normalization is the identity on rectangles with non-negative extents. -/
theorem normalized_eq_of_nonneg {r : Rect} (hw : 0 ≤ r.width) (hh : 0 ≤ r.height) :
    r.normalized = r := by
  simp [Rect.normalized, not_lt.mpr hw, not_lt.mpr hh]

/-- A desk carrying the editor label `"Wall"` in its metadata: the engines
classify it as a wall even though its type is `DESK`. -/
def deskLabeledWall : EngineObject := ⟨some .desk, 0, 20, 100, 10, [("ui_type", "Wall")]⟩

/-- The horizontal wall of §8 scenario 2, as the engines see it. -/
def wallE : EngineObject := ⟨some .wall, 0, 20, 100, 10, []⟩

/-- C3: the object-type table.  The claim (and the repository's own tests and
callers) requires the eleven-member enumeration with `DOOR` walkable; the
source enum has exactly the seven members below and marks every one of them
non-walkable, so `ObjectType.DOOR` does not exist and `is_walkable` is
constantly false. -/
theorem c3_object_type_table :
    (∀ t : ObjectType, is_walkable t = false) ∧
    (∀ t : ObjectType, t = .desk ∨ t = .chair ∨ t = .armchair ∨ t = .plant
      ∨ t = .wall ∨ t = .printer ∨ t = .meeting_table) := by
  constructor <;> intro t <;> cases t <;> simp [is_walkable, OBJECT_TYPES]

/-- C1 counterexample: an object of (non-wall) type `DESK` whose metadata
carries `ui_type = "Wall"` is given the centerline rectangle
`(0, 15, 100, 10)` by both engines, not the raw `(0, 20, 100, 10)` the claim
assigns to every non-wall object. -/
theorem c1_counterexample :
    deskLabeledWall.type = some ObjType.desk ∧
    validation_obj_rect deskLabeledWall = Rect.mk 0 15 100 10 ∧
    routing_obj_rect deskLabeledWall = Rect.mk 0 15 100 10 ∧
    validation_obj_rect deskLabeledWall ≠
      Rect.mk deskLabeledWall.x deskLabeledWall.y deskLabeledWall.width deskLabeledWall.height := by
  refine ⟨rfl, by decide, by decide, by decide⟩

/-- C1 (amended): for every object with non-negative extents, both engines
compute the same occupied rectangle; an object the engines classify as a wall
(type `WALL` or metadata `ui_type = "Wall"`) gets the centerline rectangle
(horizontal form when `width ≥ height`, vertical otherwise), and every other
object gets the raw `Rect(x, y, width, height)`. -/
theorem c1_wall_convention (o : EngineObject) (hw : 0 ≤ o.width) (hh : 0 ≤ o.height) :
    validation_obj_rect o = routing_obj_rect o ∧
    (engine_is_wall o = true → o.width ≥ o.height →
      validation_obj_rect o =
        Rect.mk o.x (o.y - min o.width o.height / 2) o.width (min o.width o.height)) ∧
    (engine_is_wall o = true → o.width < o.height →
      validation_obj_rect o =
        Rect.mk (o.x - min o.width o.height / 2) o.y (min o.width o.height) o.height) ∧
    (engine_is_wall o = false →
      validation_obj_rect o = Rect.mk o.x o.y o.width o.height) := by
  have hmin : 0 ≤ min o.width o.height := le_min hw hh
  refine ⟨rfl, ?_, ?_, ?_⟩
  · intro hwall hge
    simp only [validation_obj_rect, hwall, if_pos, if_true, hge]
    exact normalized_eq_of_nonneg hw hmin
  · intro hwall hlt
    simp only [validation_obj_rect, hwall, if_true, not_le.mpr hlt, if_false]
    exact normalized_eq_of_nonneg hmin hh
  · intro hwall
    simp only [validation_obj_rect, hwall, Bool.false_eq_true, if_false]
    exact normalized_eq_of_nonneg hw hh

/-- C1 witness: the wall at `(0, 20, 100, 10)` has occupied rectangle
`(0, 15, 100, 10)`. -/
theorem c1_wall_convention_witness :
    validation_obj_rect wallE = Rect.mk 0 15 100 10 := by
  have h := (c1_wall_convention wallE (by decide) (by decide)).2.1 (by decide) (by decide)
  exact h.trans (by decide)

/-- C5 counterexample: on the repository's `LayoutModel`, moving an id that
is not present raises `AttributeError` (from `_to_rect(None)`) instead of
returning `(false, NotFound)`. -/
theorem c5_counterexample :
    move_object (mkLayoutModel 100 100 50) 1 0 0 = Except.error PyErr.attributeError := by
  decide

/-- C5 (amended): whenever `get_object` misses, `move_object` on a
`LayoutModel` raises `AttributeError` (no mutation is performed; the
`(false, NotFound)` return only happens for duck-typed models whose
`get_object` raises `KeyError`). -/
theorem c5_move_object_miss (m : LayoutModel) (objId : Int) (nx ny : ℚ)
    (h : get_object m objId = none) :
    move_object m objId nx ny = Except.error PyErr.attributeError := by
  unfold move_object
  rw [h]

/-- C5 witness. -/
theorem c5_move_object_miss_witness :
    move_object (mkLayoutModel 200 200 40) 42 5 5 = Except.error PyErr.attributeError :=
  c5_move_object_miss (mkLayoutModel 200 200 40) 42 5 5 (by decide)

/-- Inserting under a key that is already present keeps the dict size. -/
theorem dictInsert_length_of_mem {objs : List LayoutObject} {o : LayoutObject}
    (h : ∃ a ∈ objs, a.id = o.id) : (dictInsert objs o).length = objs.length := by
  induction objs with
  | nil => rcases h with ⟨a, ha, _⟩; cases ha
  | cons b rest ih =>
    by_cases hb : b.id = o.id
    · simp [dictInsert, hb]
    · rcases h with ⟨a, ha, hid⟩
      rcases List.mem_cons.mp ha with rfl | ha2
      · exact absurd hid hb
      · simp [dictInsert, hb, ih ⟨a, ha2, hid⟩]

/-- After an insert, lookup by the inserted key finds the new value. -/
theorem get_dictInsert (objs : List LayoutObject) (o : LayoutObject) :
    (dictInsert objs o).find? (fun a => a.id == o.id) = some o := by
  induction objs with
  | nil => simp [dictInsert]
  | cons b rest ih =>
    by_cases hb : b.id = o.id
    · simp [dictInsert, hb]
    · simp [dictInsert, hb, ih]

/-- The model with a desk stored under the forced id 7. -/
def Mdup : LayoutModel := (add_object (mkLayoutModel 100 100 50) .desk 0 0 10 10 0 [] (some 7)).2

/-- C6 counterexample: `add_object` accepts a negative width and stores the
object (no `ValidationError(InvalidInput)` exists anywhere in the model), and
a duplicate forced id silently replaces the existing object instead of
failing. -/
theorem c6_counterexample :
    (add_object (mkLayoutModel 100 100 50) .desk 0 0 (-5) 10 0 [] none).2.objects =
      [⟨1, .desk, 0, 0, -5, 10, 0, []⟩] ∧
    (add_object Mdup .chair 1 1 5 5 0 [] (some 7)).2.objects =
      [⟨7, .chair, 1, 1, 5, 5, 0, []⟩] := by
  decide

/-- C6 (amended): `add_object` performs no input validation.  For any width
and height (non-positive included) and any forced id — even one already in
use — it succeeds, returns the object built verbatim from the arguments,
stores it under the forced id (replacing an existing object with that id, so
the object count is unchanged), and advances `_next_id` to
`max(_next_id, id+1)`. -/
theorem c6_add_object_no_validation (m : LayoutModel) (t : ObjectType)
    (x y w h rot : ℚ) (md : List (String × String)) (i : Int)
    (hdup : ∃ o ∈ m.objects, o.id = i) :
    (add_object m t x y w h rot md (some i)).1 = ⟨i, t, x, y, w, h, rot, md⟩ ∧
    get_object (add_object m t x y w h rot md (some i)).2 i =
      some ⟨i, t, x, y, w, h, rot, md⟩ ∧
    (add_object m t x y w h rot md (some i)).2.objects.length = m.objects.length ∧
    (add_object m t x y w h rot md (some i)).2.next_id = max m.next_id (i + 1) := by
  refine ⟨rfl, ?_, ?_, rfl⟩
  · exact get_dictInsert m.objects ⟨i, t, x, y, w, h, rot, md⟩
  · exact dictInsert_length_of_mem hdup

/-- C6 witness: replacing the desk stored under id 7 by a chair of width −5
succeeds and keeps one object. -/
theorem c6_add_object_no_validation_witness :
    get_object (add_object Mdup .chair 1 1 (-5) 5 0 [] (some 7)).2 7 =
      some ⟨7, .chair, 1, 1, -5, 5, 0, []⟩ ∧
    (add_object Mdup .chair 1 1 (-5) 5 0 [] (some 7)).2.objects.length = 1 := by
  have h := c6_add_object_no_validation Mdup .chair 1 1 (-5) 5 0 [] 7
    ⟨⟨7, .desk, 0, 0, 10, 10, 0, []⟩, by decide, rfl⟩
  exact ⟨h.2.1, h.2.2.1.trans (by decide)⟩

/-- Overwriting `x`/`y` of the object stored under `objId` is found by a
lookup under `objId` (earlier entries never match, and ids are preserved). -/
theorem find_map_update (objs : List LayoutObject) (objId : Int) (nx ny : ℚ)
    (obj : LayoutObject)
    (h : objs.find? (fun o => o.id == objId) = some obj) :
    (objs.map fun o => if o.id = objId then { o with x := nx, y := ny } else o).find?
      (fun o => o.id == objId) = some { obj with x := nx, y := ny } := by
  induction objs with
  | nil => simp at h
  | cons b rest ih =>
    by_cases hb : b.id = objId
    · have hpb : (b.id == objId) = true := by simp [hb]
      simp only [List.find?_cons, hpb] at h
      injection h with h
      subst h
      simp only [List.map_cons, if_pos hb, List.find?_cons]
      simp [hpb]
    · have hpb : (b.id == objId) = false := by simp [hb]
      simp only [List.find?_cons, hpb] at h
      simp only [List.map_cons, if_neg hb, List.find?_cons, hpb]
      exact ih h

/-- A lookup under a different id is unaffected by the overwrite. -/
theorem find_map_update_other (objs : List LayoutObject) (objId j : Int) (nx ny : ℚ)
    (hj : j ≠ objId) :
    (objs.map fun o => if o.id = objId then { o with x := nx, y := ny } else o).find?
      (fun o => o.id == j) = objs.find? (fun o => o.id == j) := by
  induction objs with
  | nil => simp
  | cons b rest ih =>
    by_cases hb : b.id = objId
    · have hbj : ¬b.id = j := fun e => hj (e ▸ hb)
      have hp : (b.id == j) = false := by simp [hbj]
      simp only [List.map_cons, if_pos hb, List.find?_cons, hp]
      exact ih
    · by_cases hbj : b.id = j
      · have hp : (b.id == j) = true := by simp [hbj]
        simp [List.map_cons, if_neg hb, List.find?_cons, hp]
      · have hp : (b.id == j) = false := by simp [hbj]
        simp only [List.map_cons, if_neg hb, List.find?_cons, hp]
        exact ih

/-- C7: `move_object` is check-then-mutate.  If it returns normally with
`true`, the object under the id has origin exactly `(new_x, new_y)` while
every other object and every layout field is unchanged; if it returns with
`false`, the model is untouched. -/
theorem c7_move_object_frame (m : LayoutModel) (objId : Int) (nx ny : ℚ)
    (obj : LayoutObject) (ok : Bool) (msg : String) (m2 : LayoutModel)
    (hget : get_object m objId = some obj)
    (hrun : move_object m objId nx ny = .ok (ok, msg, m2)) :
    (ok = true →
      get_object m2 objId = some { obj with x := nx, y := ny } ∧
      (∀ j, j ≠ objId → get_object m2 j = get_object m j) ∧
      m2.room_width = m.room_width ∧ m2.room_height = m.room_height ∧
      m2.grid_size = m.grid_size ∧ m2.exit_points = m.exit_points ∧
      m2.min_clearance = m.min_clearance ∧ m2.next_id = m.next_id) ∧
    (ok = false → m2 = m) := by
  simp only [move_object, hget] at hrun
  by_cases hcp : (can_place_internal m ⟨nx, ny, obj.width, obj.height⟩ (some objId)).1 = true
  · rw [if_pos hcp] at hrun
    simp only [Except.ok.injEq, Prod.mk.injEq] at hrun
    obtain ⟨hok, -, hm2⟩ := hrun
    subst hok
    refine ⟨fun _ => ?_, fun hfalse => by cases hfalse⟩
    subst hm2
    refine ⟨?_, ?_, rfl, rfl, rfl, rfl, rfl, rfl⟩
    · exact find_map_update m.objects objId nx ny obj hget
    · intro j hj
      exact find_map_update_other m.objects objId j nx ny hj
  · rw [if_neg hcp] at hrun
    simp only [Except.ok.injEq, Prod.mk.injEq] at hrun
    obtain ⟨hok, -, hm2⟩ := hrun
    subst hm2
    refine ⟨fun htrue => ?_, fun _ => rfl⟩
    rw [htrue] at hok
    exact absurd hok (by decide)

/-- The desk used by the C7 witness. -/
def deskL : LayoutObject := ⟨1, .desk, 0, 0, 10, 10, 0, []⟩

/-- A model holding only `deskL`. -/
def MdeskW : LayoutModel := ⟨200, 200, 40, [deskL], 2, [], 0⟩

/-- `MdeskW` after the desk moved to `(50, 50)`. -/
def MdeskW2 : LayoutModel := ⟨200, 200, 40, [⟨1, .desk, 50, 50, 10, 10, 0, []⟩], 2, [], 0⟩

/-- C7 witness: a successful move leaves exactly the moved origin changed. -/
theorem c7_move_object_frame_witness :
    get_object MdeskW2 1 = some { deskL with x := 50, y := 50 } ∧
    MdeskW2.exit_points = MdeskW.exit_points := by
  have h := c7_move_object_frame MdeskW 1 50 50 deskL true
    "Object moved successfully." MdeskW2 (by decide) (by decide)
  exact ⟨(h.1 rfl).1, (h.1 rfl).2.2.2.2.2.1⟩

/-- The horizontal wall of §8 scenario 2 as a stored layout object. -/
def wallL : LayoutObject := ⟨1, .wall, 0, 20, 100, 10, 0, []⟩

/-- A 100×40 room containing only `wallL`. -/
def Mwall : LayoutModel := ⟨100, 40, 50, [wallL], 2, [], 0⟩

/-- C2 counterexample: the candidate `(0, 26, 10, 4)` is inside the room,
does not intersect the wall's centerline occupied rectangle `(0, 15, 100,
10)`, and no clearance is configured — yet `can_place_object` reports a
collision, because it tested the wall's raw `(0, 20, 100, 10)`.  Likewise
`move_object` of the wall to `(0, 31)` builds the raw candidate
`(0, 31, 100, 10)` (out of bounds) instead of the centerline rectangle
`(0, 26, 100, 10)` (in bounds) and rejects the move. -/
theorem c2_counterexample :
    can_place_object Mwall ⟨0, 26, 10, 4⟩ = (false, "Object collides with another object.") ∧
    rects_intersect (Rect.mk 0 26 10 4) (validation_obj_rect wallE) = false ∧
    fits_in_room (Rect.mk 0 26 10 4) (placement_room_rect Mwall) = true ∧
    Mwall.min_clearance = 0 ∧
    move_object Mwall 1 0 31 = Except.ok (false, "Object is outside room bounds.", Mwall) ∧
    fits_in_room (validation_obj_rect ⟨some .wall, 0, 31, 100, 10, []⟩)
      (placement_room_rect Mwall) = true := by
  decide

/-- The declarative raw-rectangle placement predicate, following the amended
claim's wording: the candidate is contained in the raw room rectangle and,
for every non-ignored object, does not collide with the object's RAW
`(x, y, width, height)` rectangle and respects a positive `min_clearance`
against that raw rectangle. -/
def can_place_raw_spec (m : LayoutModel) (cand : Rect) (ig : Option Int) : Prop :=
  fits_in_room cand (placement_room_rect m) = true ∧
  ∀ o ∈ m.objects, ig ≠ some o.id →
    collides cand (placement_to_rect o) = false ∧
    (0 < m.min_clearance →
      distance_between_lt cand (placement_to_rect o) m.min_clearance = false)

/-- The object loop passes exactly when every non-ignored object passes the
raw collision and clearance tests. -/
theorem can_place_loop_true_iff (cand : Rect) (mcl : ℚ) (ig : Option Int)
    (objs : List LayoutObject) :
    (can_place_loop cand mcl ig objs).1 = true ↔
      ∀ o ∈ objs, ig ≠ some o.id →
        collides cand (placement_to_rect o) = false ∧
        (0 < mcl → distance_between_lt cand (placement_to_rect o) mcl = false) := by
  induction objs with
  | nil => simp [can_place_loop]
  | cons o rest ih =>
    simp only [can_place_loop]
    by_cases hig : ig = some o.id
    · rw [if_pos hig, ih]
      constructor
      · intro hAll a ha hia
        rcases List.mem_cons.mp ha with rfl | ha2
        · exact absurd hig hia
        · exact hAll a ha2 hia
      · intro hAll a ha hia
        exact hAll a (List.mem_cons_of_mem _ ha) hia
    · rw [if_neg hig]
      by_cases hc : collides cand (placement_to_rect o) = true
      · rw [if_pos hc]
        constructor
        · intro hfalse
          cases hfalse
        · intro hAll
          have := (hAll o (List.mem_cons_self o rest) hig).1
          rw [hc] at this
          cases this
      · rw [if_neg hc]
        have hcf : collides cand (placement_to_rect o) = false := by
          cases hcol : collides cand (placement_to_rect o)
          · rfl
          · exact absurd hcol hc
        by_cases hd : (decide (mcl > 0) && distance_between_lt cand (placement_to_rect o) mcl) = true
        · rw [if_pos hd]
          simp only [Bool.and_eq_true, decide_eq_true_eq] at hd
          constructor
          · intro hfalse
            cases hfalse
          · intro hAll
            have := ((hAll o (List.mem_cons_self o rest) hig).2 hd.1)
            rw [hd.2] at this
            cases this
        · rw [if_neg hd]
          simp only [Bool.and_eq_true, decide_eq_true_eq, not_and] at hd
          rw [ih]
          constructor
          · intro hAll a ha hia
            rcases List.mem_cons.mp ha with rfl | ha2
            · refine ⟨hcf, fun hpos => ?_⟩
              cases hdist : distance_between_lt cand (placement_to_rect a) mcl
              · rfl
              · exact absurd hdist (hd hpos)
            · exact hAll a ha2 hia
          · intro hAll a ha hia
            exact hAll a (List.mem_cons_of_mem _ ha) hia

/-- C2 (amended): the placement engine ignores the wall convention entirely.
`can_place` accepts a candidate exactly when the raw-rectangle predicate
holds (every object, walls included, contributes its raw `(x, y, width,
height)` rectangle), and `move_object` builds its candidate as the raw
`Rect(new_x, new_y, width, height)` — also for walls, whose new `y`/`x` is
thereby treated as a top-left corner, not a centerline. -/
theorem c2_placement_uses_raw_rects :
    (∀ (m : LayoutModel) (cand : Rect) (ig : Option Int),
      (can_place_internal m cand ig).1 = true ↔ can_place_raw_spec m cand ig) ∧
    (∀ (m : LayoutModel) (objId : Int) (nx ny : ℚ) (obj : LayoutObject),
      get_object m objId = some obj →
      (move_object m objId nx ny).map (fun r => r.1) =
        .ok (can_place_internal m (Rect.mk nx ny obj.width obj.height) (some objId)).1) := by
  constructor
  · intro m cand ig
    unfold can_place_internal can_place_raw_spec
    by_cases hf : fits_in_room cand (placement_room_rect m) = true
    · rw [hf]
      simp only [Bool.not_true, if_false, Bool.false_eq_true]
      rw [can_place_loop_true_iff]
      simp [hf]
    · have hff : fits_in_room cand (placement_room_rect m) = false := by
        cases hv : fits_in_room cand (placement_room_rect m)
        · rfl
        · exact absurd hv hf
      rw [hff]
      simp [hff]
  · intro m objId nx ny obj hget
    simp only [move_object, hget]
    by_cases hcp : (can_place_internal m ⟨nx, ny, obj.width, obj.height⟩ (some objId)).1 = true
    · rw [if_pos hcp, hcp]
      rfl
    · rw [if_neg hcp]
      have : (can_place_internal m ⟨nx, ny, obj.width, obj.height⟩ (some objId)).1 = false := by
        cases hv : (can_place_internal m ⟨nx, ny, obj.width, obj.height⟩ (some objId)).1
        · rfl
        · exact absurd hv hcp
      rw [this]
      rfl

/-- C2 witness: the equivalence and the raw candidate construction at the
wall layout. -/
theorem c2_placement_uses_raw_rects_witness :
    ((can_place_internal Mwall ⟨0, 26, 10, 4⟩ none).1 = true ↔
      can_place_raw_spec Mwall ⟨0, 26, 10, 4⟩ none) ∧
    (move_object Mwall 1 0 31).map (fun r => r.1) =
      .ok (can_place_internal Mwall ⟨0, 31, 100, 10⟩ (some 1)).1 :=
  ⟨c2_placement_uses_raw_rects.1 Mwall ⟨0, 26, 10, 4⟩ none,
   c2_placement_uses_raw_rects.2 Mwall 1 0 31 wallL (by decide)⟩

/-- The enum's string value decodes back to the member. -/
theorem ofValue_value (t : ObjectType) : ObjectType.ofValue t.value = .ok t := by
  cases t <;> rfl

/-- Serialize/deserialize of a single object is the identity. -/
theorem obj_from_to_dict (o : LayoutObject) :
    LayoutObject.from_dict o.to_dict = .ok o := by
  simp only [LayoutObject.from_dict, LayoutObject.to_dict, ofValue_value]
  rfl

/-- Inserting a fresh key appends. -/
theorem dictInsert_of_not_mem {objs : List LayoutObject} {o : LayoutObject}
    (h : o.id ∉ objs.map LayoutObject.id) : dictInsert objs o = objs ++ [o] := by
  induction objs with
  | nil => rfl
  | cons b rest ih =>
    simp only [List.map_cons, List.mem_cons, not_or] at h
    simp only [dictInsert, if_neg (fun e : b.id = o.id => h.1 e.symm), List.cons_append]
    rw [ih h.2]

/-- `_next_id` after loading a list of objects with forced ids, starting
from the fresh allocator value `1`. -/
def next_id_after_load (objs : List LayoutObject) : Int :=
  objs.foldl (fun a o => max a (o.id + 1)) 1

/-- The allocator fold never decreases. -/
theorem next_id_fold_le (objs : List LayoutObject) (n : Int) :
    n ≤ objs.foldl (fun a o => max a (o.id + 1)) n := by
  induction objs generalizing n with
  | nil => exact le_refl n
  | cons o rest ih =>
    exact le_trans (le_max_left n (o.id + 1)) (ih (max n (o.id + 1)))

/-- Every loaded id is strictly below the resulting allocator value. -/
theorem next_id_fold_gt (objs : List LayoutObject) (n : Int) :
    ∀ o ∈ objs, o.id < objs.foldl (fun a o => max a (o.id + 1)) n := by
  induction objs generalizing n with
  | nil => intro o ho; cases ho
  | cons b rest ih =>
    intro o ho
    rcases List.mem_cons.mp ho with rfl | ho2
    · calc o.id < o.id + 1 := lt_add_one o.id
        _ ≤ max n (o.id + 1) := le_max_right n (o.id + 1)
        _ ≤ rest.foldl (fun a o => max a (o.id + 1)) (max n (o.id + 1)) :=
          next_id_fold_le rest (max n (o.id + 1))
    · exact ih (max n (b.id + 1)) o ho2

/-- The object loop of `from_dict` over freshly-serialized objects with
pairwise distinct ids appends them in order and folds the allocator. -/
theorem from_dict_loop (rest : List LayoutObject) (acc : LayoutModel)
    (hdisj : ∀ o ∈ rest, o.id ∉ acc.objects.map LayoutObject.id)
    (hnd : (rest.map LayoutObject.id).Nodup) :
    (rest.map LayoutObject.to_dict).foldlM from_dict_step acc =
      .ok { acc with
              objects := acc.objects ++ rest,
              next_id := rest.foldl (fun a o => max a (o.id + 1)) acc.next_id } := by
  induction rest generalizing acc with
  | nil =>
    simp only [List.map_nil, List.foldlM_nil, List.append_nil, List.foldl_nil]
    rfl
  | cons o rest ih =>
    simp only [List.map_cons, List.foldlM_cons]
    have hstep : from_dict_step acc o.to_dict =
        .ok { acc with
                objects := acc.objects ++ [o],
                next_id := max acc.next_id (o.id + 1) } := by
      simp only [from_dict_step, obj_from_to_dict]
      show Except.ok (add_object acc o.type o.x o.y o.width o.height o.rotation
        o.metadata (some o.id)).2 = _
      simp only [add_object]
      rw [dictInsert_of_not_mem (hdisj o (List.mem_cons_self o rest))]
    rw [hstep]
    show (rest.map LayoutObject.to_dict).foldlM from_dict_step _ = _
    simp only [List.map_cons, List.nodup_cons] at hnd
    rw [ih _ ?_ hnd.2]
    · simp [List.append_assoc]
    · intro p hp
      simp only [List.map_append, List.mem_append, not_or]
      refine ⟨hdisj p (List.mem_cons_of_mem o hp), ?_⟩
      simp only [List.map_cons, List.map_nil, List.mem_singleton]
      intro e
      exact hnd.1 (e ▸ List.mem_map_of_mem LayoutObject.id hp)

/-- C8: serialization round-trips.  For every model whose object ids are
pairwise distinct (the `_objects`-dict invariant), `from_dict (to_dict m)`
succeeds and reproduces the room dimensions, grid size, exit points and the
objects with all fields intact; the reloaded allocator strictly exceeds
every stored id. -/
theorem c8_roundtrip (m : LayoutModel)
    (hnd : (m.objects.map LayoutObject.id).Nodup) :
    LayoutModel.from_dict (LayoutModel.to_dict m) =
      .ok { room_width := m.room_width, room_height := m.room_height,
            grid_size := m.grid_size, objects := m.objects,
            next_id := next_id_after_load m.objects,
            exit_points := m.exit_points, min_clearance := 0 } ∧
    ∀ o ∈ m.objects, o.id < next_id_after_load m.objects := by
  constructor
  · show (LayoutModel.to_dict m).objects.foldlM from_dict_step
        (mkLayoutModel (LayoutModel.to_dict m).room_width
          (LayoutModel.to_dict m).room_height (LayoutModel.to_dict m).grid_size) >>= _ = _
    have hloop := from_dict_loop m.objects (mkLayoutModel m.room_width m.room_height m.grid_size)
      (by intro o _; simp [mkLayoutModel]) hnd
    show (m.objects.map LayoutObject.to_dict).foldlM from_dict_step
        (mkLayoutModel m.room_width m.room_height m.grid_size) >>= _ = _
    rw [hloop]
    rfl
  · exact next_id_fold_gt m.objects 1

/-- The round-trip witness model: §8 scenario 6 (a desk forced to id 7, a
chair, one exit point). -/
def M8e : LayoutModel :=
  ⟨300, 200, 25,
    [⟨7, .desk, 10, 20, 120, 60, 0, [("foo", "bar")]⟩,
     ⟨8, .chair, 200, 100, 40, 40, 0, []⟩],
    9, [(290, 100)], 0⟩

/-- C8 witness. -/
theorem c8_roundtrip_witness :
    LayoutModel.from_dict (LayoutModel.to_dict M8e) =
      .ok ⟨300, 200, 25, M8e.objects, 9, [(290, 100)], 0⟩ ∧
    (7 : Int) < next_id_after_load M8e.objects := by
  have h := c8_roundtrip M8e (by decide)
  refine ⟨h.1.trans (by decide), ?_⟩
  exact h.2 ⟨7, .desk, 10, 20, 120, 60, 0, [("foo", "bar")]⟩ (by decide)

/-- A grid has `hh` rows of `ww` cells each. -/
def grid_shape (g : Grid) (hh ww : Nat) : Prop :=
  g.length = hh ∧ ∀ row ∈ g, row.length = ww

/-- A single cell write never changes the shape. -/
theorem grid_shape_gridSet {g : Grid} {hh ww : Nat} (hs : grid_shape g hh ww)
    (r c : Int) (v : Nat) : grid_shape (gridSet g r c v) hh ww := by
  obtain ⟨hl, hr⟩ := hs
  by_cases hidx : r.toNat < g.length
  · refine ⟨by simpa [gridSet] using hl, ?_⟩
    intro row hrow
    rcases List.mem_or_eq_of_mem_set hrow with hmem | heq
    · exact hr row hmem
    · subst heq
      rw [List.length_set]
      refine hr _ ?_
      rw [List.getD_eq_getElem g [] hidx]
      exact List.getElem_mem hidx
  · have hid : gridSet g r c v = g := by
      unfold gridSet
      exact List.set_eq_of_length_le (le_of_not_lt hidx)
    rw [hid]
    exact ⟨hl, hr⟩

/-- Shape is preserved by any fold whose steps preserve it. -/
theorem grid_shape_foldl {α : Type} (f : Grid → α → Grid) (l : List α) (g : Grid)
    {hh ww : Nat} (hg : grid_shape g hh ww)
    (hf : ∀ g2 a, grid_shape g2 hh ww → grid_shape (f g2 a) hh ww) :
    grid_shape (l.foldl f g) hh ww := by
  induction l generalizing g with
  | nil => exact hg
  | cons a rest ih => exact ih (f g a) (hf g a hg)

/-- `mark_cells` preserves the shape. -/
theorem grid_shape_mark_cells (v : Nat) (cells : List Cell) (hI wI : Int)
    (g : Grid) {hh ww : Nat} (hg : grid_shape g hh ww) :
    grid_shape (mark_cells v cells hI wI g) hh ww := by
  unfold mark_cells
  refine grid_shape_foldl _ _ _ hg ?_
  intro g2 c hg2
  by_cases hcond : 0 ≤ c.1 ∧ c.1 < hI ∧ 0 ≤ c.2 ∧ c.2 < wI
  · rw [if_pos hcond]
    exact grid_shape_gridSet hg2 c.1 c.2 v
  · rw [if_neg hcond]
    exact hg2

/-- `validation_mark_rect` preserves the shape. -/
theorem grid_shape_validation_mark (room : Rect) (cs : ℚ) (hI wI : Int) (v : Nat)
    (r : Rect) (g : Grid) {hh ww : Nat} (hg : grid_shape g hh ww) :
    grid_shape (validation_mark_rect room cs hI wI v r g) hh ww := by
  unfold validation_mark_rect
  exact grid_shape_mark_cells _ _ _ _ _ hg

/-- `routing_mark_rect` preserves the shape. -/
theorem grid_shape_routing_mark (room : Rect) (cs : ℚ) (hI wI : Int) (v : Nat)
    (r : Rect) (inflate : ℚ) (g : Grid) {hh ww : Nat} (hg : grid_shape g hh ww) :
    grid_shape (routing_mark_rect room cs hI wI v r inflate g) hh ww := by
  unfold routing_mark_rect
  exact grid_shape_mark_cells _ _ _ _ _ hg

/-- The fresh grid has the allocated shape. -/
theorem grid_shape_replicate (hh ww : Nat) :
    grid_shape (List.replicate hh (List.replicate ww 0)) hh ww := by
  refine ⟨List.length_replicate hh _, ?_⟩
  intro row hrow
  rw [List.eq_of_mem_replicate hrow]
  exact List.length_replicate ww 0

/-- C4 counterexample: the two builders disagree both on grid dimensions
(`⌊·⌋` versus `⌈·⌉`: 3×8 versus 4×9 for a 100×40 room at cell size 12) and,
even at matching dimensions, on the blocked set (the routing builder inflates
obstacles by `max(0.25·cell, 3)`; validation does not, so the desk at
`(0, 0, 10, 10)` blocks cell `(0, 1)` only in the routing grid). -/
theorem c4_counterexample :
    (validation_build_occupancy_grid ⟨100, 40, 10, [], []⟩ 12).1.length = 3 ∧
    (routing_build_occupancy_grid ⟨100, 40, 10, [], []⟩ 12).1.length = 4 ∧
    gridGet (validation_build_occupancy_grid
      ⟨40, 40, 10, [⟨some .desk, 0, 0, 10, 10, []⟩], []⟩ 10).1 0 1 = 0 ∧
    gridGet (routing_build_occupancy_grid
      ⟨40, 40, 10, [⟨some .desk, 0, 0, 10, 10, []⟩], []⟩ 10).1 0 1 = 1 := by
  decide

/-- C4 (amended): the rasterizations are not identical.  For every layout
and positive cell size, the validation grid measures
`max(1, ⌊room_height/c⌋) × max(1, ⌊room_width/c⌋)` while the routing grid
measures `max(1, ⌈room_height/c⌉) × max(1, ⌈room_width/c⌉)` (the positivity
hypothesis marks the only domain on which the source's builders run without
raising `ValueError`). -/
theorem c4_grid_dimensions (L : EngineLayout) (c : ℚ) (_hc : 0 < c) :
    ((validation_build_occupancy_grid L c).1.length =
        (max 1 ⌊(engine_room_rect L).height / c⌋).toNat ∧
      (∀ row ∈ (validation_build_occupancy_grid L c).1,
        row.length = (max 1 ⌊(engine_room_rect L).width / c⌋).toNat)) ∧
    ((routing_build_occupancy_grid L c).1.length =
        (max 1 ⌈(engine_room_rect L).height / c⌉).toNat ∧
      (∀ row ∈ (routing_build_occupancy_grid L c).1,
        row.length = (max 1 ⌈(engine_room_rect L).width / c⌉).toNat)) := by
  constructor
  · have hs : grid_shape (validation_build_occupancy_grid L c).1
        (max 1 ⌊(engine_room_rect L).height / c⌋).toNat
        (max 1 ⌊(engine_room_rect L).width / c⌋).toNat := by
      unfold validation_build_occupancy_grid
      refine grid_shape_foldl _ _ _ ?_ ?_
      · refine grid_shape_foldl _ _ _ ?_ ?_
        · refine grid_shape_foldl _ _ _ (grid_shape_replicate _ _) ?_
          intro g2 obj hg2
          by_cases h1 : engine_ui_type obj == "Door"
          · rw [if_pos h1]; exact hg2
          · rw [if_neg h1]
            by_cases h2 : engine_type_walkable obj
            · rw [if_pos h2]; exact hg2
            · rw [if_neg h2]; exact grid_shape_validation_mark _ _ _ _ _ _ _ hg2
        · intro g2 obj hg2
          by_cases h1 : engine_ui_type obj != "Door"
          · rw [if_pos h1]; exact hg2
          · rw [if_neg h1]; exact grid_shape_validation_mark _ _ _ _ _ _ _ hg2
      · intro g2 p hg2
        by_cases h1 : 0 ≤ (world_to_cell (p.1 - (engine_room_rect L).left)
            (p.2 - (engine_room_rect L).top) c).1 ∧ (world_to_cell (p.1 - (engine_room_rect L).left)
            (p.2 - (engine_room_rect L).top) c).1 < max 1 ⌊(engine_room_rect L).height / c⌋ ∧
            0 ≤ (world_to_cell (p.1 - (engine_room_rect L).left)
            (p.2 - (engine_room_rect L).top) c).2 ∧ (world_to_cell (p.1 - (engine_room_rect L).left)
            (p.2 - (engine_room_rect L).top) c).2 < max 1 ⌊(engine_room_rect L).width / c⌋
        · rw [if_pos h1]; exact grid_shape_gridSet hg2 _ _ _
        · rw [if_neg h1]; exact hg2
    exact hs
  · have hs : grid_shape (routing_build_occupancy_grid L c).1
        (max 1 ⌈(engine_room_rect L).height / c⌉).toNat
        (max 1 ⌈(engine_room_rect L).width / c⌉).toNat := by
      unfold routing_build_occupancy_grid
      refine grid_shape_foldl _ _ _ ?_ ?_
      · refine grid_shape_foldl _ _ _ ?_ ?_
        · refine grid_shape_foldl _ _ _ (grid_shape_replicate _ _) ?_
          intro g2 obj hg2
          by_cases h1 : engine_is_door obj
          · rw [if_pos h1]; exact hg2
          · rw [if_neg h1]
            by_cases h2 : engine_type_walkable obj
            · rw [if_pos h2]; exact hg2
            · rw [if_neg h2]; exact grid_shape_routing_mark _ _ _ _ _ _ _ _ hg2
        · intro g2 obj hg2
          by_cases h1 : !engine_is_door obj
          · rw [if_pos h1]; exact hg2
          · rw [if_neg h1]
            exact grid_shape_routing_mark _ _ _ _ _ _ _ _ hg2
      · intro g2 p hg2
        by_cases h1 : 0 ≤ (world_to_cell (p.1 - (engine_room_rect L).left)
            (p.2 - (engine_room_rect L).top) c).1 ∧ (world_to_cell (p.1 - (engine_room_rect L).left)
            (p.2 - (engine_room_rect L).top) c).1 < max 1 ⌈(engine_room_rect L).height / c⌉ ∧
            0 ≤ (world_to_cell (p.1 - (engine_room_rect L).left)
            (p.2 - (engine_room_rect L).top) c).2 ∧ (world_to_cell (p.1 - (engine_room_rect L).left)
            (p.2 - (engine_room_rect L).top) c).2 < max 1 ⌈(engine_room_rect L).width / c⌉
        · rw [if_pos h1]
          refine grid_shape_foldl _ _ _ hg2 ?_
          intro g3 dr hg3
          refine grid_shape_foldl _ _ _ hg3 ?_
          intro g4 dc hg4
          by_cases h2 : 0 ≤ (world_to_cell (p.1 - (engine_room_rect L).left)
              (p.2 - (engine_room_rect L).top) c).1 + dr ∧ (world_to_cell (p.1 - (engine_room_rect L).left)
              (p.2 - (engine_room_rect L).top) c).1 + dr < max 1 ⌈(engine_room_rect L).height / c⌉ ∧
              0 ≤ (world_to_cell (p.1 - (engine_room_rect L).left)
              (p.2 - (engine_room_rect L).top) c).2 + dc ∧ (world_to_cell (p.1 - (engine_room_rect L).left)
              (p.2 - (engine_room_rect L).top) c).2 + dc < max 1 ⌈(engine_room_rect L).width / c⌉
          · rw [if_pos h2]; exact grid_shape_gridSet hg4 _ _ _
          · rw [if_neg h2]; exact hg4
        · rw [if_neg h1]; exact hg2
    exact hs

/-- C4 witness: the dimension formulas at the 100×40 room with cell 12. -/
theorem c4_grid_dimensions_witness :
    (validation_build_occupancy_grid ⟨100, 40, 10, [], []⟩ 12).1.length = 3 ∧
    (routing_build_occupancy_grid ⟨100, 40, 10, [], []⟩ 12).1.length = 4 := by
  have h := c4_grid_dimensions ⟨100, 40, 10, [], []⟩ 12 (by norm_num)
  exact ⟨h.1.1.trans (by decide), h.2.1.trans (by decide)⟩

/-! ## A* path invariants (for the routing claims) -/

/-- Four-adjacency of cells: equal in one coordinate, distance one in the
other. -/
def adj4 (a b : Cell) : Prop :=
  (a.1 = b.1 ∧ (a.2 - b.2).natAbs = 1) ∨ (a.2 = b.2 ∧ (a.1 - b.1).natAbs = 1)

/-- A cell that A* may stand on: inside the `h × w` grid and not blocked. -/
def cell_ok (grid : Grid) (w h : Int) (c : Cell) : Prop :=
  0 ≤ c.1 ∧ c.1 < h ∧ 0 ≤ c.2 ∧ c.2 < w ∧ gridGet grid c.1 c.2 ≠ 1

/-- `_neighbors_4` yields only in-bounds cells adjacent to the centre. -/
theorem neighbors_4_spec (c : Cell) (w h : Int) (nb : Cell)
    (hnb : nb ∈ neighbors_4 c w h) (hc0 : 0 ≤ c.1) (hc1 : c.1 < h)
    (hc2 : 0 ≤ c.2) (hc3 : c.2 < w) :
    (0 ≤ nb.1 ∧ nb.1 < h ∧ 0 ≤ nb.2 ∧ nb.2 < w) ∧ adj4 c nb := by
  unfold neighbors_4 at hnb
  simp only [List.mem_append] at hnb
  rcases hnb with ((hup | hdown) | hleft) | hright
  · by_cases hgt : c.1 > 0
    · rw [if_pos hgt] at hup
      simp only [List.mem_singleton] at hup
      subst hup
      refine ⟨⟨by omega, by omega, hc2, hc3⟩, Or.inr ⟨rfl, by omega⟩⟩
    · rw [if_neg hgt] at hup
      cases hup
  · by_cases hlt : c.1 < h - 1
    · rw [if_pos hlt] at hdown
      simp only [List.mem_singleton] at hdown
      subst hdown
      refine ⟨⟨by omega, by omega, hc2, hc3⟩, Or.inr ⟨rfl, by omega⟩⟩
    · rw [if_neg hlt] at hdown
      cases hdown
  · by_cases hgt : c.2 > 0
    · rw [if_pos hgt] at hleft
      simp only [List.mem_singleton] at hleft
      subst hleft
      refine ⟨⟨hc0, hc1, by omega, by omega⟩, Or.inl ⟨rfl, by omega⟩⟩
    · rw [if_neg hgt] at hleft
      cases hleft
  · by_cases hlt : c.2 < w - 1
    · rw [if_pos hlt] at hright
      simp only [List.mem_singleton] at hright
      subst hright
      refine ⟨⟨hc0, hc1, by omega, by omega⟩, Or.inl ⟨rfl, by omega⟩⟩
    · rw [if_neg hlt] at hright
      cases hright

/-- Members of an association list after a write. -/
theorem mem_alSet {β : Type} (cf : List (Cell × β)) (c : Cell) (v : β) :
    ∀ p ∈ alSet cf c v, p = (c, v) ∨ p ∈ cf := by
  induction cf with
  | nil =>
    intro p hp
    simp only [alSet, List.mem_singleton] at hp
    exact Or.inl hp
  | cons a rest ih =>
    intro p hp
    unfold alSet at hp
    by_cases ha : a.1 = c
    · rw [if_pos ha] at hp
      rcases List.mem_cons.mp hp with rfl | hp2
      · exact Or.inl rfl
      · exact Or.inr (List.mem_cons_of_mem a hp2)
    · rw [if_neg ha] at hp
      rcases List.mem_cons.mp hp with rfl | hp2
      · exact Or.inr (List.mem_cons_self _ rest)
      · rcases ih p hp2 with h | h
        · exact Or.inl h
        · exact Or.inr (List.mem_cons_of_mem a h)

/-- A successful association-list lookup exposes a member. -/
theorem alFind_mem {β : Type} {cf : List (Cell × β)} {c : Cell} {v : β}
    (h : alFind cf c = some v) : (c, v) ∈ cf := by
  unfold alFind at h
  cases hf : cf.find? (fun p => p.1 == c) with
  | none => rw [hf] at h; cases h
  | some e =>
    rw [hf] at h
    injection h with h
    have hmem := List.mem_of_find?_eq_some hf
    have hkey := List.find?_some hf
    rcases e with ⟨e1, e2⟩
    simp only [beq_iff_eq] at hkey
    dsimp only at h
    subst hkey
    subst h
    exact hmem

/-- The heap minimum is a heap member. -/
theorem heapMin_mem : ∀ {l : List (Nat × Cell)} {m : Nat × Cell},
    heapMin l = some m → m ∈ l := by
  intro l
  induction l with
  | nil => intro m h; cases h
  | cons a rest ih =>
    intro m h
    unfold heapMin at h
    split at h
    · injection h with h
      exact h ▸ List.mem_cons_self a rest
    · rename_i b hr
      split at h
      · injection h with h
        exact h ▸ List.mem_cons_of_mem a (ih hr)
      · injection h with h
        exact h ▸ List.mem_cons_self a rest

/-- Removal only drops elements. -/
theorem removeFirst_subset (x : Nat × Cell) :
    ∀ (l : List (Nat × Cell)), ∀ y ∈ removeFirst x l, y ∈ l := by
  intro l
  induction l with
  | nil => intro y hy; cases hy
  | cons a rest ih =>
    intro y hy
    unfold removeFirst at hy
    by_cases ha : a = x
    · rw [if_pos ha] at hy
      exact List.mem_cons_of_mem a hy
    · rw [if_neg ha] at hy
      rcases List.mem_cons.mp hy with rfl | hy2
      · exact List.mem_cons_self y rest
      · exact List.mem_cons_of_mem a (ih y hy2)

/-- Every open-heap entry stands on an allowed cell. -/
def open_inv (grid : Grid) (w h : Int) (op : List (Nat × Cell)) : Prop :=
  ∀ e ∈ op, cell_ok grid w h e.2

/-- Every `came_from` key is an allowed cell, and every recorded parent is an
allowed 4-neighbour of its child. -/
def cf_inv (grid : Grid) (w h : Int) (cf : List (Cell × Option Cell)) : Prop :=
  ∀ p ∈ cf, cell_ok grid w h p.1 ∧
    ∀ q, p.2 = some q → adj4 q p.1 ∧ cell_ok grid w h q

/-- The neighbour expansion preserves both invariants (any pushed cell has
passed the grid check and is an in-bounds neighbour of an allowed cell). -/
theorem astar_expand_inv (grid : Grid) (w h : Int) (goal cur : Cell) (tent : Nat)
    (hcur : cell_ok grid w h cur) :
    ∀ (nbs : List Cell)
      (op : List (Nat × Cell)) (cf : List (Cell × Option Cell)) (gs : List (Cell × Nat)),
      (∀ nb ∈ nbs, nb ∈ neighbors_4 cur w h) →
      open_inv grid w h op → cf_inv grid w h cf →
      open_inv grid w h (astar_expand grid goal cur tent nbs (op, cf, gs)).1 ∧
      cf_inv grid w h (astar_expand grid goal cur tent nbs (op, cf, gs)).2.1 := by
  intro nbs
  induction nbs with
  | nil =>
    intro op cf gs _ hop hcf
    exact ⟨hop, hcf⟩
  | cons nb rest ih =>
    intro op cf gs hnbs hop hcf
    unfold astar_expand
    by_cases hblk : gridGet grid nb.1 nb.2 = 1
    · rw [if_pos hblk]
      exact ih op cf gs (fun x hx => hnbs x (List.mem_cons_of_mem nb hx)) hop hcf
    · rw [if_neg hblk]
      have hnbspec := neighbors_4_spec cur w h nb (hnbs nb (List.mem_cons_self nb rest))
        hcur.1 hcur.2.1 hcur.2.2.1 hcur.2.2.2.1
      have hnbok : cell_ok grid w h nb :=
        ⟨hnbspec.1.1, hnbspec.1.2.1, hnbspec.1.2.2.1, hnbspec.1.2.2.2, hblk⟩
      by_cases himp : (match alFind gs nb with
          | none => true
          | some g0 => decide (tent < g0)) = true
      · rw [if_pos himp]
        refine ih _ _ _ (fun x hx => hnbs x (List.mem_cons_of_mem nb hx)) ?_ ?_
        · intro e he
          rcases List.mem_append.mp he with he1 | he2
          · exact hop e he1
          · rw [List.mem_singleton] at he2
            subst he2
            exact hnbok
        · intro p hp
          rcases mem_alSet cf nb (some cur) p hp with rfl | hp2
          · refine ⟨hnbok, ?_⟩
            intro q hq
            have hq2 : some cur = some q := hq
            injection hq2 with hq2
            subst hq2
            exact ⟨hnbspec.2, hcur⟩
          · exact hcf p hp2
      · rw [if_neg himp]
        exact ih op cf gs (fun x hx => hnbs x (List.mem_cons_of_mem nb hx)) hop hcf

/-- The reconstructed chain always starts at the queried cell. -/
theorem reconstruct_head (cf : List (Cell × Option Cell)) :
    ∀ (fuel : Nat) (x : Cell), (reconstruct cf fuel x).head? = some x := by
  intro fuel x
  cases fuel with
  | zero => rfl
  | succ f =>
    unfold reconstruct
    split <;> rfl

/-- The reconstructed chain is never empty. -/
theorem reconstruct_ne_nil (cf : List (Cell × Option Cell)) (fuel : Nat) (x : Cell) :
    reconstruct cf fuel x ≠ [] := by
  cases fuel with
  | zero => simp [reconstruct]
  | succ f =>
    unfold reconstruct
    split <;> simp

/-- Under the `came_from` invariant, the (goal-first) reconstructed chain
visits only allowed cells and each step follows a recorded parent edge. -/
theorem reconstruct_spec (grid : Grid) (w h : Int) (cf : List (Cell × Option Cell))
    (hcf : cf_inv grid w h cf) :
    ∀ (fuel : Nat) (x : Cell), cell_ok grid w h x →
      (∀ c ∈ reconstruct cf fuel x, cell_ok grid w h c) ∧
      List.Chain' (fun a b => adj4 b a) (reconstruct cf fuel x) := by
  intro fuel
  induction fuel with
  | zero =>
    intro x hx
    constructor
    · intro c hc
      simp only [reconstruct, List.mem_singleton] at hc
      subst hc
      exact hx
    · simp [reconstruct]
  | succ fuel ih =>
    intro x hx
    cases half : alFind cf x with
    | none =>
      simp only [reconstruct, half]
      constructor
      · intro c hc
        rw [List.mem_singleton] at hc
        subst hc
        exact hx
      · simp
    | some pc =>
      cases pc with
      | none =>
        simp only [reconstruct, half]
        constructor
        · intro c hc
          rw [List.mem_singleton] at hc
          subst hc
          exact hx
        · simp
      | some p =>
        obtain ⟨-, hpar⟩ := hcf (x, some p) (alFind_mem half)
        obtain ⟨hadj, hpok⟩ := hpar p rfl
        have ihp := ih p hpok
        simp only [reconstruct, half]
        constructor
        · intro c hc
          rcases List.mem_cons.mp hc with rfl | hc2
          · exact hx
          · exact ihp.1 c hc2
        · rw [List.chain'_cons']
          refine ⟨?_, ihp.2⟩
          intro y hy
          rw [reconstruct_head cf fuel p] at hy
          have hy2 : p = y := by
            simpa using hy
          subst hy2
          exact hadj

/-- `heappop` pops a member and keeps only members. -/
theorem popMin_spec {op : List (Nat × Cell)} {fc : Nat × Cell}
    {rest : List (Nat × Cell)} (h : popMin op = some (fc, rest)) :
    fc ∈ op ∧ ∀ y ∈ rest, y ∈ op := by
  unfold popMin at h
  cases hm : heapMin op with
  | none =>
    rw [hm] at h
    cases h
  | some m =>
    rw [hm] at h
    injection h with h
    rw [Prod.ext_iff] at h
    obtain ⟨h1, h2⟩ := h
    dsimp only at h1 h2
    subst h1
    refine ⟨heapMin_mem hm, ?_⟩
    intro y hy
    rw [← h2] at hy
    exact removeFirst_subset _ op y hy

/-- Any path the A* loop returns is a non-empty 4-adjacent chain of allowed
cells. -/
theorem astar_loop_spec (grid : Grid) (w h : Int) (goal : Cell) :
    ∀ (fuel : Nat) (op : List (Nat × Cell)) (cf : List (Cell × Option Cell))
      (gs : List (Cell × Nat)) (p : List Cell),
      open_inv grid w h op → cf_inv grid w h cf →
      astar_loop grid w h goal fuel op cf gs = some p →
      p ≠ [] ∧ List.Chain' adj4 p ∧ ∀ c ∈ p, cell_ok grid w h c := by
  intro fuel
  induction fuel with
  | zero =>
    intro op cf gs p _ _ hrun
    cases hrun
  | succ fuel ih =>
    intro op cf gs p hop hcf hrun
    unfold astar_loop at hrun
    split at hrun
    · cases hrun
    · rename_i fcrest fc rest hpop
      obtain ⟨hfc, hrest⟩ := popMin_spec hpop
      have hcur : cell_ok grid w h fc.2 := hop fc hfc
      dsimp only at hrun
      split at hrun
      · rename_i hgoal
        injection hrun with hrun
        subst hrun
        have hrec := reconstruct_spec grid w h cf hcf (cf.length + 1) fc.2 hcur
        refine ⟨?_, ?_, ?_⟩
        · intro hnil
          exact reconstruct_ne_nil cf (cf.length + 1) fc.2 (List.reverse_eq_nil_iff.mp hnil)
        · rw [List.chain'_reverse]
          exact hrec.2
        · intro c hc
          exact hrec.1 c (List.mem_reverse.mp hc)
      · refine ih _ _ _ p ?_ ?_ hrun
        · exact (astar_expand_inv grid w h goal fc.2 _ hcur _ rest cf gs
            (fun x hx => hx) (fun e he => hop e (hrest e he)) hcf).1
        · exact (astar_expand_inv grid w h goal fc.2 _ hcur _ rest cf gs
            (fun x hx => hx) (fun e he => hop e (hrest e he)) hcf).2

/-- `_astar_path` only returns non-empty 4-adjacent chains of free in-bounds
cells of the grid. -/
theorem astar_path_spec (grid : Grid) (start goal : Cell) (cells : List Cell)
    (h : astar_path grid start goal = some cells) :
    cells ≠ [] ∧ List.Chain' adj4 cells ∧
      ∀ c ∈ cells,
        cell_ok grid (((grid.headD []).length : Nat) : Int) ((grid.length : Nat) : Int) c := by
  unfold astar_path at h
  dsimp only at h
  by_cases hw : (((grid.headD []).length : Nat) : Int) = 0
  · rw [if_pos hw] at h
    cases h
  · rw [if_neg hw] at h
    by_cases hb : ¬(0 ≤ start.1 ∧ start.1 < ((grid.length : Nat) : Int) ∧ 0 ≤ start.2 ∧
        start.2 < (((grid.headD []).length : Nat) : Int) ∧ 0 ≤ goal.1 ∧
        goal.1 < ((grid.length : Nat) : Int) ∧ 0 ≤ goal.2 ∧
        goal.2 < (((grid.headD []).length : Nat) : Int))
    · rw [if_pos hb] at h
      cases h
    · rw [if_neg hb] at h
      rw [not_not] at hb
      by_cases hfree : gridGet grid start.1 start.2 = 1 ∨ gridGet grid goal.1 goal.2 = 1
      · rw [if_pos hfree] at h
        cases h
      · rw [if_neg hfree] at h
        rw [not_or] at hfree
        refine astar_loop_spec grid _ _ goal _ _ _ _ cells ?_ ?_ h
        · intro e he
          rw [List.mem_singleton] at he
          subst he
          exact ⟨hb.1, hb.2.1, hb.2.2.1, hb.2.2.2.1, hfree.1⟩
        · intro q hq
          rw [List.mem_singleton] at hq
          subst hq
          exact ⟨⟨hb.1, hb.2.1, hb.2.2.1, hb.2.2.2.1, hfree.1⟩, fun r hr => by cases hr⟩

/-- One selection step either keeps the accumulator or switches to a path
that A* actually returned for this exit. -/
theorem best_exit_step_spec (grid : Grid) (room : Rect) (cell : ℚ) (w h : Int)
    (start : Cell) (acc : Option (List Cell × (ℚ × ℚ))) (e : ℚ × ℚ) :
    best_exit_step grid room cell w h start acc e = acc ∨
      ∃ goal cl, astar_path grid start goal = some cl ∧
        best_exit_step grid room cell w h start acc e = some (cl, e) := by
  unfold best_exit_step
  dsimp only
  split
  · exact Or.inl rfl
  · rename_i goal hgoal
    split
    · exact Or.inl rfl
    · rename_i cl hcl
      split
      · exact Or.inr ⟨goal, cl, hcl, rfl⟩
      · split
        · exact Or.inr ⟨goal, cl, hcl, rfl⟩
        · exact Or.inl rfl

/-- A result of the selection loop either was already in the accumulator or
pairs one of the listed exits with a path A* returned. -/
theorem best_exit_fold_spec (grid : Grid) (room : Rect) (cell : ℚ) (w h : Int)
    (start : Cell) :
    ∀ (es : List (ℚ × ℚ)) (acc : Option (List Cell × (ℚ × ℚ)))
      (cells : List Cell) (e : ℚ × ℚ),
      best_exit_fold grid room cell w h start es acc = some (cells, e) →
      acc = some (cells, e) ∨
        (e ∈ es ∧ ∃ goal, astar_path grid start goal = some cells) := by
  intro es
  induction es with
  | nil =>
    intro acc cells e hres
    exact Or.inl hres
  | cons e0 rest ih =>
    intro acc cells e hres
    unfold best_exit_fold at hres
    rcases ih _ cells e hres with hacc2 | ⟨hmem, hg⟩
    · rcases best_exit_step_spec grid room cell w h start acc e0 with hstep |
        ⟨goal, cl, hcl, hstep⟩
      · rw [hstep] at hacc2
        exact Or.inl hacc2
      · rw [hstep] at hacc2
        injection hacc2 with hacc2
        rw [Prod.ext_iff] at hacc2
        obtain ⟨h1, h2⟩ := hacc2
        dsimp only at h1 h2
        subst h1
        subst h2
        exact Or.inr ⟨List.mem_cons_self _ _, goal, hcl⟩
    · exact Or.inr ⟨List.mem_cons_of_mem e0 hmem, hg⟩

/-- The finishing step keeps the cell centers (possibly with the exact exit
appended), is non-empty for non-empty input, and ends within `1e-6` of the
chosen exit in each coordinate. -/
theorem fspe_finish_spec (room : Rect) (cell : ℚ) (cells : List Cell) (e : ℚ × ℚ)
    (hne : cells ≠ []) :
    (fspe_finish room cell cells e = cells.map (cell_center_world room cell) ∨
      fspe_finish room cell cells e = cells.map (cell_center_world room cell) ++ [e]) ∧
    fspe_finish room cell cells e ≠ [] ∧
    ∃ lastPt, (fspe_finish room cell cells e).getLast? = some lastPt ∧
      |lastPt.1 - e.1| ≤ 1 / 1000000 ∧ |lastPt.2 - e.2| ≤ 1 / 1000000 := by
  have hptsne : cells.map (cell_center_world room cell) ≠ [] := by
    simpa using hne
  unfold fspe_finish
  dsimp only
  cases hlast : (cells.map (cell_center_world room cell)).getLast? with
  | none =>
    rw [List.getLast?_eq_none_iff] at hlast
    exact absurd hlast hptsne
  | some lastPt =>
    dsimp only
    by_cases hcond : |lastPt.1 - e.1| > 1 / 1000000 ∨ |lastPt.2 - e.2| > 1 / 1000000
    · rw [if_pos hcond]
      refine ⟨Or.inr rfl, by simp, e, ?_, ?_, ?_⟩
      · rw [List.getLast?_concat]
      · simp
      · simp
    · rw [if_neg hcond]
      push_neg at hcond
      exact ⟨Or.inl rfl, hptsne, lastPt, hlast, hcond.1, hcond.2⟩

/-- Centers of a 4-adjacent chain of cells differ by exactly the (positive)
cell size in exactly one coordinate at each step. -/
theorem chain_adj4_center (room : Rect) (cs : ℚ) (hcs : 0 < cs) (cells : List Cell)
    (hch : List.Chain' adj4 cells) :
    List.Chain' (fun p q : ℚ × ℚ => (p.2 = q.2 ∧ |q.1 - p.1| = cs) ∨
      (p.1 = q.1 ∧ |q.2 - p.2| = cs)) (cells.map (cell_center_world room cs)) := by
  rw [List.chain'_map]
  refine List.Chain'.imp ?_ hch
  intro a b hab
  rcases hab with ⟨h1, h2⟩ | ⟨h1, h2⟩
  · left
    unfold cell_center_world
    constructor
    · dsimp only
      rw [h1]
    · dsimp only
      have habs : |((b.2 - a.2 : ℤ) : ℚ)| = 1 := by
        rw [← Int.cast_abs]
        rw [abs_sub_comm]
        rw [Int.abs_eq_natAbs, h2]
        norm_num
      have hx : (room.left + ((b.2 : ℚ) + 1 / 2) * cs) -
          (room.left + ((a.2 : ℚ) + 1 / 2) * cs) = ((b.2 - a.2 : ℤ) : ℚ) * cs := by
        push_cast
        ring
      rw [hx, abs_mul, habs, one_mul, abs_of_pos hcs]
  · right
    unfold cell_center_world
    constructor
    · dsimp only
      rw [h1]
    · dsimp only
      have habs : |((b.1 - a.1 : ℤ) : ℚ)| = 1 := by
        rw [← Int.cast_abs]
        rw [abs_sub_comm]
        rw [Int.abs_eq_natAbs, h2]
        norm_num
      have hy : (room.top + ((b.1 : ℚ) + 1 / 2) * cs) -
          (room.top + ((a.1 : ℚ) + 1 / 2) * cs) = ((b.1 - a.1 : ℤ) : ℚ) * cs := by
        push_cast
        ring
      rw [hy, abs_mul, habs, one_mul, abs_of_pos hcs]

/-- Dissection of a successful `find_shortest_path_to_exit` run: the result
finishes a path that A* returned toward one of the layout's exits. -/
theorem find_path_dissect (L : EngineLayout) (s : ℚ × ℚ) (ca : Option ℚ)
    (pts : List (ℚ × ℚ)) (hres : find_shortest_path_to_exit L s ca = some pts) :
    ∃ (cells : List Cell) (e : ℚ × ℚ) (goal start : Cell),
      e ∈ L.exit_points ∧
      astar_path (routing_build_occupancy_grid L (resolve_cell_size L ca)).1 start goal =
        some cells ∧
      pts = fspe_finish (routing_build_occupancy_grid L (resolve_cell_size L ca)).2.1
        (resolve_cell_size L ca) cells e := by
  unfold find_shortest_path_to_exit at hres
  dsimp only at hres
  by_cases hex : L.exit_points = []
  · rw [if_pos hex] at hres
    cases hres
  · rw [if_neg hex] at hres
    by_cases hw : (((routing_build_occupancy_grid L
        (resolve_cell_size L ca)).1.headD []).length : Int) = 0
    · rw [if_pos hw] at hres
      cases hres
    · rw [if_neg hw] at hres
      split at hres
      · cases hres
      · rename_i start hstart
        split at hres
        · cases hres
        · rename_i pr cells e hbest
          injection hres with hres
          subst hres
          rcases best_exit_fold_spec _ _ _ _ _ _ L.exit_points none cells e hbest with
            hc | ⟨hmem, goal, hgl⟩
          · cases hc
          · exact ⟨cells, e, goal, start, hmem, hgl, rfl⟩

/-- A 12×12 empty room whose only exit sits `1e-7` off the center of its
single routing cell. -/
def L9 : EngineLayout := ⟨12, 12, 10, [], [(6 + 1 / 10000000, 6)]⟩

/-- C9 counterexample: with the exit `1e-7` away from the cell center, the
returned polyline is `[(6, 6)]` — within the `1e-6` tolerance, so nothing is
appended — and its last vertex equals no exit point of the layout exactly. -/
theorem c9_counterexample :
    find_shortest_path_to_exit L9 (1, 1) (some 12) = some [(6, 6)] ∧
    ((6 : ℚ), (6 : ℚ)) ∉ L9.exit_points := by
  refine ⟨by decide, by decide⟩

/-- C9 (amended): a returned polyline is non-empty and its last vertex
agrees with one of the layout's exit points to within `1e-6` in each
coordinate (it is the exit itself exactly when either coordinate of the last
cell center misses the exit by more than `1e-6`, in which case the exit is
appended). -/
theorem c9_last_vertex (L : EngineLayout) (s : ℚ × ℚ) (ca : Option ℚ)
    (pts : List (ℚ × ℚ)) (hres : find_shortest_path_to_exit L s ca = some pts) :
    pts ≠ [] ∧ ∃ e ∈ L.exit_points, ∃ lastPt, pts.getLast? = some lastPt ∧
      |lastPt.1 - e.1| ≤ 1 / 1000000 ∧ |lastPt.2 - e.2| ≤ 1 / 1000000 := by
  obtain ⟨cells, e, goal, start, hmem, hgl, hpts⟩ := find_path_dissect L s ca pts hres
  have hne := (astar_path_spec _ _ _ _ hgl).1
  obtain ⟨-, hfne, lastPt, hlp, h1, h2⟩ :=
    fspe_finish_spec (routing_build_occupancy_grid L (resolve_cell_size L ca)).2.1
      (resolve_cell_size L ca) cells e hne
  subst hpts
  exact ⟨hfne, e, hmem, lastPt, hlp, h1, h2⟩

/-- A 12×12 empty room with its exit exactly at the cell center. -/
def L9w : EngineLayout := ⟨12, 12, 10, [], [(6, 6)]⟩

/-- C9 witness. -/
theorem c9_last_vertex_witness :
    ∃ e ∈ L9w.exit_points, ∃ lastPt,
      ([((6 : ℚ), (6 : ℚ))] : List (ℚ × ℚ)).getLast? = some lastPt ∧
      |lastPt.1 - e.1| ≤ 1 / 1000000 ∧ |lastPt.2 - e.2| ≤ 1 / 1000000 :=
  (c9_last_vertex L9w (1, 1) (some 12) [(6, 6)] (by decide)).2

/-- C10: every polyline `find_shortest_path_to_exit` returns is
grid-walkable — it is the world-coordinate centers of a non-empty chain of
free in-bounds grid cells (with the exact exit possibly appended as a final
vertex), consecutive cells are 4-adjacent, and consecutive centers differ by
exactly the cell size in exactly one coordinate. -/
theorem c10_path_grid_walkable (L : EngineLayout) (s : ℚ × ℚ) (ca : Option ℚ)
    (pts : List (ℚ × ℚ)) (hc : 0 < resolve_cell_size L ca)
    (hres : find_shortest_path_to_exit L s ca = some pts) :
    ∃ cells : List Cell, cells ≠ [] ∧
      (pts = cells.map (cell_center_world
          (routing_build_occupancy_grid L (resolve_cell_size L ca)).2.1
          (resolve_cell_size L ca)) ∨
        ∃ e ∈ L.exit_points,
          pts = cells.map (cell_center_world
            (routing_build_occupancy_grid L (resolve_cell_size L ca)).2.1
            (resolve_cell_size L ca)) ++ [e]) ∧
      (∀ c ∈ cells, cell_ok (routing_build_occupancy_grid L (resolve_cell_size L ca)).1
        ((((routing_build_occupancy_grid L (resolve_cell_size L ca)).1.headD []).length : Nat) : Int)
        (((routing_build_occupancy_grid L (resolve_cell_size L ca)).1.length : Nat) : Int) c) ∧
      List.Chain' adj4 cells ∧
      List.Chain' (fun p q : ℚ × ℚ => (p.2 = q.2 ∧ |q.1 - p.1| = resolve_cell_size L ca) ∨
        (p.1 = q.1 ∧ |q.2 - p.2| = resolve_cell_size L ca))
        (cells.map (cell_center_world
          (routing_build_occupancy_grid L (resolve_cell_size L ca)).2.1
          (resolve_cell_size L ca))) := by
  obtain ⟨cells, e, goal, start, hmem, hgl, hpts⟩ := find_path_dissect L s ca pts hres
  have hspec := astar_path_spec _ _ _ _ hgl
  obtain ⟨hform, -, -⟩ :=
    fspe_finish_spec (routing_build_occupancy_grid L (resolve_cell_size L ca)).2.1
      (resolve_cell_size L ca) cells e hspec.1
  refine ⟨cells, hspec.1, ?_, hspec.2.2, hspec.2.1,
    chain_adj4_center _ _ hc cells hspec.2.1⟩
  subst hpts
  rcases hform with hf | hf
  · exact Or.inl hf
  · exact Or.inr ⟨e, hmem, hf⟩

/-- C10 witness. -/
theorem c10_path_grid_walkable_witness :
    ∃ cells : List Cell, cells ≠ [] ∧
      (([((6 : ℚ), (6 : ℚ))] : List (ℚ × ℚ)) = cells.map (cell_center_world
          (routing_build_occupancy_grid L9w (resolve_cell_size L9w (some 12))).2.1
          (resolve_cell_size L9w (some 12))) ∨
        ∃ e ∈ L9w.exit_points,
          ([((6 : ℚ), (6 : ℚ))] : List (ℚ × ℚ)) = cells.map (cell_center_world
            (routing_build_occupancy_grid L9w (resolve_cell_size L9w (some 12))).2.1
            (resolve_cell_size L9w (some 12))) ++ [e]) ∧
      (∀ c ∈ cells, cell_ok (routing_build_occupancy_grid L9w (resolve_cell_size L9w (some 12))).1
        ((((routing_build_occupancy_grid L9w
          (resolve_cell_size L9w (some 12))).1.headD []).length : Nat) : Int)
        (((routing_build_occupancy_grid L9w (resolve_cell_size L9w (some 12))).1.length : Nat) : Int) c) ∧
      List.Chain' adj4 cells ∧
      List.Chain' (fun p q : ℚ × ℚ =>
        (p.2 = q.2 ∧ |q.1 - p.1| = resolve_cell_size L9w (some 12)) ∨
        (p.1 = q.1 ∧ |q.2 - p.2| = resolve_cell_size L9w (some 12)))
        (cells.map (cell_center_world
          (routing_build_occupancy_grid L9w (resolve_cell_size L9w (some 12))).2.1
          (resolve_cell_size L9w (some 12)))) :=
  c10_path_grid_walkable L9w (1, 1) (some 12) [(6, 6)] (by decide) (by decide)
